import Mathlib

/-!
Verification of the Crazyflie bootloader flashing core
(`cflib/bootloader/__init__.py`).

The Python code is shallowly embedded as pure Lean functions.  Device I/O
performed through the `Cloader` protocol engine is recorded as a trace of
`Event`s; results of fallible device commands (`write_flash`) and of the
cooperative cancellation callback (`terminate_flashing_cb`) are supplied as
oracle functions, so a single run of the model covers every possible device
behaviour.  Python `int` arithmetic is embedded as `Nat`/`Int` (the image
sizes involved are far below 2^53, where CPython float division used in
`int((len(image) - 1) / page_size)` agrees with exact floor division), and
the float accumulator `progress`, which after `k` executions of
`progress += factor` holds exactly `k * (100 * page_size) / len(image)` in
exact arithmetic, is embedded by the counter `k`, with Python
`int(progress)` rendered as the floor `(k * (100 * page_size)) / len`
(all values are nonnegative, so floor equals truncation).
-/

namespace Crazyflie

/-- The `Target` namedtuple `(platform, target, type)`. -/
structure Target where
  platform : String
  target : String
  type : String
deriving DecidableEq

/-- The `FlashArtifact` namedtuple `(content, target)`; bytes are `Nat`s. -/
structure FlashArtifact where
  content : List Nat
  target : Target
deriving DecidableEq

/-- Per-target flash geometry, as cached by the `Cloader` in
`self._cload.targets[id]` and read by `_internal_flash` (`t_data`). -/
structure TargetInfo where
  id : Nat
  addr : Nat
  page_size : Nat
  buffer_pages : Nat
  flash_pages : Nat
  start_page : Nat
deriving DecidableEq

namespace BootVersion

/-- Modelled from the spec: `boottypes.BootVersion` is not part of the
sources under verification.  The spec recognizes exactly three protocol
versions, two legacy CF1 variants and the CF2 variant; the concrete codes
only need to be pairwise distinct. -/
def CF1_PROTO_VER_0 : Nat := 0x00

/-- Modelled from the spec: second legacy CF1 protocol code. -/
def CF1_PROTO_VER_1 : Nat := 0x01

/-- Modelled from the spec: the current CF2 protocol code. -/
def CF2_PROTO_VER : Nat := 0x10

/-- Modelled from the spec: `is_cf2(v)` returns true only for the current
(CF2) protocol variant. -/
def is_cf2 (ver : Nat) : Bool := ver == CF2_PROTO_VER

end BootVersion

namespace TargetTypes

/-- Modelled from the spec: numeric id of the STM32 target (`STM32=0xFF`). -/
def STM32 : Nat := 0xFF

/-- Modelled from the spec: numeric id of the NRF51 target (`NRF51=0xFE`). -/
def NRF51 : Nat := 0xFE

/-- Modelled from the spec: name of a target id, used in progress strings. -/
def to_string (id : Nat) : String :=
  if id == STM32 then "stm32" else if id == NRF51 then "nrf51" else "Unknown"

end TargetTypes

/-- One observable step of the flashing core: a device command sent through
the `Cloader`, a progress-callback invocation, a line printed to stdout, or
one of the deck-pipeline transitions. -/
inductive Event where
  | uploadBuffer (addr : Nat) (bufferPage : Nat) (off : Nat) (data : List Nat)
  | writeFlash (addr : Nat) (bufferStart : Nat) (destPage : Int) (numPages : Nat)
  | progressMsg (msg : String) (percent : Int)
  | stdoutMsg (msg : String)
  | resetToFirmwareCmd (targetId : Nat)
  | closeLink
  | requestInfoUpdate (targetId : Nat)
  | deckPipe (tag : Nat)
  | bootloaderRestart
deriving DecidableEq

/-- Events that belong to the deck-pipeline excursion of `flash`: the
reset-to-firmware command, the link handoff, anything emitted from inside
`_flash_deck`, and the re-entry into bootloader mode. -/
def Event.isDeckPipeline : Event → Bool
  | .resetToFirmwareCmd _ => true
  | .closeLink => true
  | .deckPipe _ => true
  | .bootloaderRestart => true
  | _ => false

/-- The distinct failure exits of the core (each is a raised exception in
the Python source). -/
inductive FlashError where
  | notEnoughSpace
  | terminated
  | deviceWrite
  | wrongManifest
  | binToMultipleTargets
  | deckUpdateFailed
deriving DecidableEq

/-- Result of the page-streaming loop of `_internal_flash`: the emitted
events, the error (if the loop raised), the buffer counter `ctr`, and the
number `k` of `progress += factor` steps performed (which determines the
float `progress` accumulator exactly: `progress = k * factor`). -/
structure LoopOut where
  events : List Event
  err : Option FlashError
  ctr : Nat
  k : Nat

/-- Python `int(progress)` after `k` executions of `progress += factor`
with `factor = (100.0 * page_size) / len`: the exact value is
`k * (100 * page_size) / len`, and `int()` of a nonnegative value is its
floor, i.e. `Nat` division. -/
def progressPercent (t : TargetInfo) (len k : Nat) : Int :=
  ((k * (100 * t.page_size)) / len : Nat)

/-- The `upload_buffer` call of one loop iteration of `_internal_flash`:
page `i` of the image is copied to buffer position `ctr`; the final partial
page is uploaded with its natural short length (`image[i*page_size:]`). -/
def uploadEvent (t : TargetInfo) (image : List Nat) (i ctr : Nat) : Event :=
  if (i + 1) * t.page_size > image.length then
    .uploadBuffer t.addr ctr 0 (image.drop (i * t.page_size))
  else
    .uploadBuffer t.addr ctr 0 ((image.drop (i * t.page_size)).take t.page_size)

/-- The per-page progress report of `_internal_flash` (progress-callback
mode reports `int(progress)`, stdout mode prints a dot). -/
def uploadMsg (t : TargetInfo) (hasCb : Bool) (cur tot : Nat) (p : Int) : Event :=
  if hasCb then
    .progressMsg s!"Firmware ({cur}/{tot}) Uploading buffer to {TargetTypes.to_string t.id}..." p
  else .stdoutMsg "."

/-- The pre-`write_flash` report of `_internal_flash` (stdout mode prints
the counter via `sys.stdout.write(str(n))`). -/
def writeMsg (t : TargetInfo) (hasCb : Bool) (cur tot : Nat) (p : Int) (n : Nat) : Event :=
  if hasCb then
    .progressMsg s!"Firmware ({cur}/{tot}) Writing buffer to {TargetTypes.to_string t.id}..." p
  else .stdoutMsg s!"{n}"

/-- The report emitted when `write_flash` returns failure (the Python
message also interpolates `self._cload.error_code`, which lives in the
protocol engine outside the verified sources and is omitted here). -/
def writeFailMsg (hasCb : Bool) (p : Int) : Event :=
  if hasCb then .progressMsg "Error during flash operation" p
  else .stdoutMsg "Error during flash operation"

/-- The `for i in range(0, int((len(image) - 1) / page_size) + 1)` loop of
`_internal_flash`, with `fuel` remaining iterations, current page index `i`,
buffer counter `ctr` and progress-step counter `k` (bumped exactly when
the source executes `progress += factor`, i.e. only in callback mode).
`term` is the cancellation callback (indexed by the iteration polling it)
and `writeOk` gives the device's acknowledgement of each `write_flash`. -/
def flashLoop (t : TargetInfo) (image : List Nat) (hasCb : Bool)
    (term : Nat → Bool) (writeOk : Nat → Nat → Int → Nat → Bool)
    (cur tot : Nat) :
    Nat → Nat → Nat → Nat → LoopOut
  | 0, _, ctr, k => ⟨[], none, ctr, k⟩
  | fuel + 1, i, ctr, k =>
    if term i then ⟨[], some .terminated, ctr, k⟩ else
    let k1 := if hasCb then k + 1 else k
    let p1 := progressPercent t image.length k1
    if ctr + 1 ≥ t.buffer_pages then
      let dest : Int := (t.start_page : Int) + (i : Int) - (((ctr + 1 : Nat) : Int) - 1)
      if writeOk t.addr 0 dest (ctr + 1) then
        let rest := flashLoop t image hasCb term writeOk cur tot fuel (i + 1) 0 k1
        ⟨uploadEvent t image i ctr :: uploadMsg t hasCb cur tot p1 ::
            writeMsg t hasCb cur tot p1 (ctr + 1) ::
            .writeFlash t.addr 0 dest (ctr + 1) :: rest.events,
         rest.err, rest.ctr, rest.k⟩
      else
        ⟨[uploadEvent t image i ctr, uploadMsg t hasCb cur tot p1,
          writeMsg t hasCb cur tot p1 (ctr + 1),
          .writeFlash t.addr 0 dest (ctr + 1), writeFailMsg hasCb p1],
         some .deviceWrite, ctr + 1, k1⟩
    else
      let rest := flashLoop t image hasCb term writeOk cur tot fuel (i + 1) (ctr + 1) k1
      ⟨uploadEvent t image i ctr :: uploadMsg t hasCb cur tot p1 :: rest.events,
       rest.err, rest.ctr, rest.k⟩

/-- Number of loop iterations of `_internal_flash`:
`int((len(image) - 1) / page_size) + 1`. -/
def pageCount (len ps : Nat) : Nat := (len - 1) / ps + 1

/-- `Bootloader._internal_flash`: flashes one artifact onto the target with
geometry `t`, returning the emitted event trace and the error if the call
raised.  `hasCb` tells whether `self.progress_cb` is set. -/
def internalFlash (t : TargetInfo) (a : FlashArtifact) (hasCb : Bool)
    (term : Nat → Bool) (writeOk : Nat → Nat → Int → Nat → Bool)
    (cur tot : Nat) : List Event × Option FlashError :=
  let image := a.content
  let n := image.length
  let startEv : Event :=
    if hasCb then .progressMsg s!"Firmware ({cur}/{tot}) Starting..." 0
    else .stdoutMsg s!"Flashing {cur} of {tot} to {TargetTypes.to_string t.id} ({a.target.type}): "
  if (n : Int) > ((t.flash_pages : Int) - (t.start_page : Int)) * (t.page_size : Int) then
    ([startEv,
      if hasCb then .progressMsg "Error: Not enough space to flash the image file." 0
      else .stdoutMsg "Error: Not enough space to flash the image file."],
     some .notEnoughSpace)
  else
    let bytesEv : List Event :=
      if hasCb then []
      else [.stdoutMsg s!"{n - 1} bytes ({n / t.page_size + 1} pages) "]
    let r := flashLoop t image hasCb term writeOk cur tot (pageCount n t.page_size) 0 0 0
    match r.err with
    | some e => (startEv :: bytesEv ++ r.events, some e)
    | none =>
      if 0 < r.ctr then
        let p := progressPercent t n r.k
        let dest : Int := (t.start_page : Int) + (((n - 1) / t.page_size : Nat) : Int)
          - ((r.ctr : Int) - 1)
        if writeOk t.addr 0 dest r.ctr then
          (startEv :: bytesEv ++ r.events
            ++ [writeMsg t hasCb cur tot p r.ctr, .writeFlash t.addr 0 dest r.ctr],
           none)
        else
          (startEv :: bytesEv ++ r.events
            ++ [writeMsg t hasCb cur tot p r.ctr, .writeFlash t.addr 0 dest r.ctr,
                writeFailMsg hasCb p],
           some .deviceWrite)
      else (startEv :: bytesEv ++ r.events, none)

/-- `Bootloader._flash_flash`, unrolled with the 1-based artifact counter of
`enumerate`: flashes the artifacts in order, stopping at the first raised
error.  `geo` models the `Cloader`'s geometry table lookup
`self._cload.targets[TargetTypes.from_string(artifact.target.target)]`. -/
def flashFlashGo (geo : String → TargetInfo) (hasCb : Bool) (term : Nat → Bool)
    (writeOk : Nat → Nat → Int → Nat → Bool) (tot : Nat) :
    Nat → List FlashArtifact → List Event × Option FlashError
  | _, [] => ([], none)
  | i, a :: rest =>
    match internalFlash (geo a.target.target) a hasCb term writeOk (i + 1) tot with
    | (evs, some e) => (evs, some e)
    | (evs, none) =>
      match flashFlashGo geo hasCb term writeOk tot (i + 1) rest with
      | (evs2, res) => (evs ++ evs2, res)

/-- `Bootloader._flash_flash(artifacts, targets)`.  Note that the source
never reads `targets` inside this method. -/
def flashFlash (geo : String → TargetInfo) (hasCb : Bool) (term : Nat → Bool)
    (writeOk : Nat → Nat → Int → Nat → Bool)
    (artifacts : List FlashArtifact) (targets : List Target) :
    List Event × Option FlashError :=
  flashFlashGo geo hasCb term writeOk artifacts.length 0 artifacts

/-- `Bootloader._get_platform_id`. -/
def getPlatformId (protocolVersion : Nat) : String :=
  if BootVersion.is_cf2 protocolVersion then "cf2" else "cf1"

/-- `Bootloader.reset_to_firmware`: dispatches on the protocol version. -/
def resetToFirmwareEvent (protocolVersion : Nat) : Event :=
  if protocolVersion == BootVersion.CF2_PROTO_VER then
    .resetToFirmwareCmd TargetTypes.NRF51
  else .resetToFirmwareCmd TargetTypes.STM32

/-- Input file as seen by `flash`: the raw bytes returned by
`open(filename, 'br').read()`, plus, when `zipfile.is_zipfile` holds, the
parsed manifest version and the `files` map in insertion order with each
member's bytes already read. -/
structure BundleFile where
  rawBytes : List Nat
  zipContent : Option (Int × List (List Nat × Target))

/-- `Bootloader._get_flash_artifacts_from_zip`: non-ZIP files yield `[]`;
a manifest whose `version != 1` raises; otherwise each `files` entry
becomes an artifact in manifest order. -/
def getFlashArtifactsFromZip (file : BundleFile) : Except FlashError (List FlashArtifact) :=
  match file.zipContent with
  | none => .ok []
  | some (ver, files) =>
    if ver ≠ 1 then .error .wrongManifest
    else .ok (files.map fun f => ⟨f.1, f.2⟩)

/-- The artifact-resolution step of `flash` (lines 142-148): an empty
artifact list is upgraded to a single raw-binary artifact when exactly one
target was requested, and raises otherwise. -/
def resolveArtifacts (file : BundleFile) (targets : List Target) :
    Except FlashError (List FlashArtifact) :=
  match getFlashArtifactsFromZip file with
  | .error e => .error e
  | .ok arts0 =>
    if arts0.length = 0 then
      match targets with
      | [t0] => .ok [⟨file.rawBytes, t0⟩]
      | _ => .error .binToMultipleTargets
    else .ok arts0

/-- The MCU-flash stage of `flash` (lines 155-156): runs `_flash_flash`
when no targets were requested or at least one flash-target was. -/
def mcuStage (geo : String → TargetInfo) (hasCb : Bool) (term : Nat → Bool)
    (writeOk : Nat → Nat → Int → Nat → Bool)
    (targets flashTargets : List Target) (flashArtifacts : List FlashArtifact) :
    List Event × Option FlashError :=
  if targets.length = 0 ∨ 0 < flashTargets.length then
    flashFlash geo hasCb term writeOk flashArtifacts flashTargets
  else ([], none)

/-- The deck stage of `flash` (lines 159-182).  `_flash_deck` itself acts
through the application-mode client (`SyncCrazyflie`, deck memories), which
is outside the verified sources; it is supplied as an oracle returning its
emitted deck events and its error, wrapped in `Event.deckPipe`.  The stage
returns the emitted events, the `deck_update_msg` and the error. -/
def deckStage (pv : Nat) (warmBooted hasCb : Bool)
    (oracle : List FlashArtifact → List Target → List Nat × Option FlashError)
    (targets deckTargets : List Target) (deckArtifacts : List FlashArtifact) :
    List Event × String × Option FlashError :=
  if targets.length = 0 ∨ 0 < deckTargets.length then
    if warmBooted then
      let pre := (if hasCb then [Event.progressMsg "Restarting firmware to update decks." 0]
                  else [])
        ++ [resetToFirmwareEvent pv, Event.closeLink]
      match oracle deckArtifacts deckTargets with
      | (tags, some e) => (pre ++ tags.map Event.deckPipe, "Deck update complete.", some e)
      | (tags, none) =>
        (pre ++ tags.map Event.deckPipe
          ++ (if hasCb then [Event.progressMsg "Deck updated! Restarting firmware." 100]
              else [])
          ++ [Event.bootloaderRestart],
         "Deck update complete.", none)
    else
      ([Event.stdoutMsg "Skipping updating deck on coldboot"],
       "Deck update skipped in ColdBoot mode.", none)
  else ([], "Deck update skipped.", none)

/-- `Bootloader.flash(filename, targets)`: partitions targets and artifacts
by platform, resolves the bundle, runs the MCU stage, then the deck stage,
and reports the final progress line.  `pv` is `self.protocol_version`,
`warmBooted` is `self.warm_booted`. -/
def flash (pv : Nat) (warmBooted : Bool) (geo : String → TargetInfo) (hasCb : Bool)
    (term : Nat → Bool) (writeOk : Nat → Nat → Int → Nat → Bool)
    (oracle : List FlashArtifact → List Target → List Nat × Option FlashError)
    (file : BundleFile) (targets : List Target) : List Event × Option FlashError :=
  let platform := getPlatformId pv
  let flashTargets := targets.filter fun tg => tg.platform == platform
  let deckTargets := targets.filter fun tg => tg.platform == "deck"
  match resolveArtifacts file targets with
  | .error e => ([], some e)
  | .ok artifacts =>
    let flashArtifacts := artifacts.filter fun a => a.target.platform == platform
    let deckArtifacts := artifacts.filter fun a => a.target.platform == "deck"
    let mcu := mcuStage geo hasCb term writeOk targets flashTargets flashArtifacts
    match mcu.2 with
    | some e => (mcu.1, some e)
    | none =>
      let deck := deckStage pv warmBooted hasCb oracle targets deckTargets deckArtifacts
      match deck.2.2 with
      | some e => (mcu.1 ++ deck.1, some e)
      | none =>
        let nf := flashArtifacts.length
        (mcu.1 ++ deck.1
          ++ (if hasCb then
                [Event.progressMsg s!"({nf}/{nf}) Flashing done! {deck.2.1}" 100]
              else [Event.stdoutMsg ""]),
         none)

/-- The `started` flag computed by `start_bootloader` before the protocol
dispatch (lines 96-116).  `linkPresent` models `self._cload.link` being
set, `scanUri` the result of `scan_for_bootloader`, `resetOk` the result of
`reset_to_bootloader(NRF51)` and `checkOk` that of
`check_link_and_get_info`. -/
def startedOf (warmBoot linkPresent : Bool) (scanUri : Option String)
    (resetOk checkOk : Bool) : Bool :=
  if warmBoot then resetOk && checkOk
  else if !linkPresent then scanUri.isSome && checkOk
  else true

/-- `Bootloader.start_bootloader`: returns the emitted events, the returned
`started` flag and the resulting `self.protocol_version` (which keeps its
previous value `oldPv` when the probe failed). -/
def startBootloader (warmBoot linkPresent : Bool) (scanUri : Option String)
    (resetOk checkOk : Bool) (probedProtocol oldPv : Nat) :
    List Event × Bool × Nat :=
  if startedOf warmBoot linkPresent scanUri resetOk checkOk then
    if probedProtocol == BootVersion.CF1_PROTO_VER_0
        || probedProtocol == BootVersion.CF1_PROTO_VER_1 then
      ([], true, probedProtocol)
    else if probedProtocol == BootVersion.CF2_PROTO_VER then
      ([Event.requestInfoUpdate TargetTypes.NRF51], true, probedProtocol)
    else
      ([Event.stdoutMsg "Bootloader protocol not supported!"], true, probedProtocol)
  else ([], false, oldPv)

/-- The protocol codes recognized by `start_bootloader`'s dispatch. -/
def recognizedProtocol (v : Nat) : Bool :=
  v == BootVersion.CF1_PROTO_VER_0 || v == BootVersion.CF1_PROTO_VER_1
    || v == BootVersion.CF2_PROTO_VER

/-- The `(destPage, numPages)` arguments of the `write_flash` commands in a
trace, in order of emission. -/
def writeCmds (evs : List Event) : List (Int × Nat) :=
  evs.filterMap fun e => match e with
    | .writeFlash _ _ d n => some (d, n)
    | _ => none

/-- The `(destPage, numPages)` pairs of `write_flash` commands addressed to
a given target base address. -/
def addrWrites (addr : Nat) (evs : List Event) : List (Int × Nat) :=
  evs.filterMap fun e => match e with
    | .writeFlash a _ d n => if a == addr then some (d, n) else none
    | _ => none

/-- The `upload_buffer` commands of a trace. -/
def uploadEvs (evs : List Event) : List Event :=
  evs.filter fun e => match e with
    | .uploadBuffer _ _ _ _ => true
    | _ => false

/-- The percent values handed to the progress callback, in order. -/
def percents (evs : List Event) : List Int :=
  evs.filterMap fun e => match e with
    | .progressMsg _ p => some p
    | _ => none

/-- The device pages programmed by a list of `write_flash` commands: each
command `(dest, n)` programs pages `dest, dest+1, …, dest+n-1`. -/
def pagesOfCmds (ws : List (Int × Nat)) : List Int :=
  ws.flatMap fun w => (List.range w.2).map fun (j : Nat) => w.1 + (j : Int)

/-- The device pages programmed over a whole trace, in program order. -/
def pagesWritten (evs : List Event) : List Int := pagesOfCmds (writeCmds evs)

/-- The ascending run `[a, a+1, …, a+len-1]` of page numbers. -/
def intRange (a : Int) (len : Nat) : List Int :=
  (List.range len).map fun (j : Nat) => a + (j : Int)

/-! ### Trace projection lemmas -/

@[simp] lemma writeCmds_nil : writeCmds [] = [] := rfl

@[simp] lemma writeCmds_cons_uploadBuffer (a b o : Nat) (d : List Nat) (l : List Event) :
    writeCmds (Event.uploadBuffer a b o d :: l) = writeCmds l := rfl

@[simp] lemma writeCmds_cons_writeFlash (a b : Nat) (d : Int) (n : Nat) (l : List Event) :
    writeCmds (Event.writeFlash a b d n :: l) = (d, n) :: writeCmds l := rfl

@[simp] lemma writeCmds_cons_progressMsg (m : String) (p : Int) (l : List Event) :
    writeCmds (Event.progressMsg m p :: l) = writeCmds l := rfl

@[simp] lemma writeCmds_cons_stdoutMsg (m : String) (l : List Event) :
    writeCmds (Event.stdoutMsg m :: l) = writeCmds l := rfl

@[simp] lemma writeCmds_append (l1 l2 : List Event) :
    writeCmds (l1 ++ l2) = writeCmds l1 ++ writeCmds l2 := by
  simp [writeCmds, List.filterMap_append]

@[simp] lemma writeCmds_cons_uploadEvent (t : TargetInfo) (image : List Nat) (i ctr : Nat)
    (l : List Event) : writeCmds (uploadEvent t image i ctr :: l) = writeCmds l := by
  unfold uploadEvent; split <;> rfl

@[simp] lemma writeCmds_cons_uploadMsg (t : TargetInfo) (hasCb : Bool) (cur tot : Nat)
    (p : Int) (l : List Event) : writeCmds (uploadMsg t hasCb cur tot p :: l) = writeCmds l := by
  unfold uploadMsg; split <;> rfl

@[simp] lemma writeCmds_cons_writeMsg (t : TargetInfo) (hasCb : Bool) (cur tot : Nat)
    (p : Int) (n : Nat) (l : List Event) :
    writeCmds (writeMsg t hasCb cur tot p n :: l) = writeCmds l := by
  unfold writeMsg; split <;> rfl

@[simp] lemma writeCmds_cons_writeFailMsg (hasCb : Bool) (p : Int) (l : List Event) :
    writeCmds (writeFailMsg hasCb p :: l) = writeCmds l := by
  unfold writeFailMsg; split <;> rfl

@[simp] lemma percents_nil : percents [] = [] := rfl

@[simp] lemma percents_cons_uploadBuffer (a b o : Nat) (d : List Nat) (l : List Event) :
    percents (Event.uploadBuffer a b o d :: l) = percents l := rfl

@[simp] lemma percents_cons_writeFlash (a b : Nat) (d : Int) (n : Nat) (l : List Event) :
    percents (Event.writeFlash a b d n :: l) = percents l := rfl

@[simp] lemma percents_cons_progressMsg (m : String) (p : Int) (l : List Event) :
    percents (Event.progressMsg m p :: l) = p :: percents l := rfl

@[simp] lemma percents_cons_stdoutMsg (m : String) (l : List Event) :
    percents (Event.stdoutMsg m :: l) = percents l := rfl

@[simp] lemma percents_append (l1 l2 : List Event) :
    percents (l1 ++ l2) = percents l1 ++ percents l2 := by
  simp [percents, List.filterMap_append]

@[simp] lemma percents_cons_uploadEvent (t : TargetInfo) (image : List Nat) (i ctr : Nat)
    (l : List Event) : percents (uploadEvent t image i ctr :: l) = percents l := by
  unfold uploadEvent; split <;> rfl

lemma percents_cons_uploadMsg (t : TargetInfo) (hasCb : Bool) (cur tot : Nat)
    (p : Int) (l : List Event) :
    percents (uploadMsg t hasCb cur tot p :: l)
      = if hasCb then p :: percents l else percents l := by
  unfold uploadMsg; split <;> simp_all

lemma percents_cons_writeMsg (t : TargetInfo) (hasCb : Bool) (cur tot : Nat)
    (p : Int) (n : Nat) (l : List Event) :
    percents (writeMsg t hasCb cur tot p n :: l)
      = if hasCb then p :: percents l else percents l := by
  unfold writeMsg; split <;> simp_all

lemma percents_cons_writeFailMsg (hasCb : Bool) (p : Int) (l : List Event) :
    percents (writeFailMsg hasCb p :: l)
      = if hasCb then p :: percents l else percents l := by
  unfold writeFailMsg; split <;> simp_all

@[simp] lemma uploadEvs_nil : uploadEvs [] = [] := rfl

@[simp] lemma uploadEvs_cons_progressMsg (m : String) (p : Int) (l : List Event) :
    uploadEvs (Event.progressMsg m p :: l) = uploadEvs l := rfl

@[simp] lemma uploadEvs_cons_stdoutMsg (m : String) (l : List Event) :
    uploadEvs (Event.stdoutMsg m :: l) = uploadEvs l := rfl

/-! ### Streaming-loop characterization -/

section LoopLemmas

variable (t : TargetInfo) (image : List Nat) (hasCb : Bool) (term : Nat → Bool)
  (writeOk : Nat → Nat → Int → Nat → Bool) (cur tot : Nat)

lemma flashLoop_success_cmds (hB : 0 < t.buffer_pages) :
    ∀ fuel i ctr k, ctr < t.buffer_pages →
      (flashLoop t image hasCb term writeOk cur tot fuel i ctr k).err = none →
      writeCmds (flashLoop t image hasCb term writeOk cur tot fuel i ctr k).events
          = (List.range ((ctr + fuel) / t.buffer_pages)).map
              (fun (j : Nat) => ((t.start_page : Int) + (i : Int) - (ctr : Int)
                  + (j : Int) * (t.buffer_pages : Int), t.buffer_pages))
        ∧ (flashLoop t image hasCb term writeOk cur tot fuel i ctr k).ctr
            = (ctr + fuel) % t.buffer_pages := by
  intro fuel
  induction fuel with
  | zero =>
    intro i ctr k hctr _
    simp [flashLoop, Nat.div_eq_of_lt hctr, Nat.mod_eq_of_lt hctr]
  | succ fuel ih =>
    intro i ctr k hctr hok
    by_cases hterm : term i
    · simp [flashLoop, hterm] at hok
    · by_cases hfull : ctr + 1 ≥ t.buffer_pages
      · have hc : ctr + 1 = t.buffer_pages := by omega
        have hcI : ((ctr : Int) + 1) = (t.buffer_pages : Int) := by exact_mod_cast hc
        have h1 : ctr + (fuel + 1) = fuel + t.buffer_pages := by omega
        by_cases hw : writeOk t.addr 0
            ((t.start_page : Int) + (i : Int) - (((ctr + 1 : Nat) : Int) - 1)) (ctr + 1) = true
        · simp only [flashLoop, hterm, Bool.false_eq_true, if_false, if_pos hfull,
            if_pos hw] at hok ⊢
          obtain ⟨hcmds, hctr2⟩ := ih (i + 1) 0 (if hasCb then k + 1 else k) hB hok
          rw [Nat.zero_add] at hcmds hctr2
          refine ⟨?_, ?_⟩
          · simp only [writeCmds_cons_uploadEvent, writeCmds_cons_uploadMsg,
              writeCmds_cons_writeMsg, writeCmds_cons_writeFlash, hcmds]
            have hq : (ctr + (fuel + 1)) / t.buffer_pages = fuel / t.buffer_pages + 1 := by
              rw [h1, Nat.add_div_right _ hB]
            rw [hq, List.range_succ_eq_map, List.map_cons, List.map_map]
            refine List.cons_eq_cons.mpr ⟨?_, ?_⟩
            · refine Prod.ext ?_ hc
              push_cast
              ring
            · refine List.map_congr_left fun j hj => ?_
              simp only [Function.comp_apply]
              refine Prod.ext ?_ rfl
              push_cast
              linear_combination hcI
          · rw [hctr2, h1, Nat.add_mod_right]
        · simp only [flashLoop, hterm, Bool.false_eq_true, if_false, if_pos hfull,
            if_neg hw] at hok
          exact absurd hok (by simp)
      · have hlt : ctr + 1 < t.buffer_pages := by omega
        simp only [flashLoop, hterm, Bool.false_eq_true, if_false, if_neg hfull] at hok ⊢
        obtain ⟨hcmds, hctr2⟩ := ih (i + 1) (ctr + 1) (if hasCb then k + 1 else k) hlt hok
        refine ⟨?_, ?_⟩
        · simp only [writeCmds_cons_uploadEvent, writeCmds_cons_uploadMsg, hcmds]
          have harg : ctr + 1 + fuel = ctr + (fuel + 1) := by omega
          rw [harg]
          refine List.map_congr_left fun j hj => ?_
          refine Prod.ext ?_ rfl
          push_cast
          ring
        · rw [hctr2]
          congr 1
          omega

end LoopLemmas

section LoopShape

variable (t : TargetInfo) (image : List Nat) (hasCb : Bool) (term : Nat → Bool)
  (writeOk : Nat → Nat → Int → Nat → Bool) (cur tot : Nat)

lemma flashLoop_cmds_shape :
    ∀ fuel i ctr k, ctr < t.buffer_pages →
      ∀ w ∈ writeCmds (flashLoop t image hasCb term writeOk cur tot fuel i ctr k).events,
        w.2 = t.buffer_pages
          ∧ ∃ m, i ≤ m ∧ m < i + fuel
              ∧ w.1 = (t.start_page : Int) + (m : Int) - ((w.2 : Int) - 1) := by
  intro fuel
  induction fuel with
  | zero =>
    intro i ctr k _ w hw
    simp [flashLoop] at hw
  | succ fuel ih =>
    intro i ctr k hctr w hw
    by_cases hterm : term i
    · simp [flashLoop, hterm] at hw
    · by_cases hfull : ctr + 1 ≥ t.buffer_pages
      · have hc : ctr + 1 = t.buffer_pages := by omega
        by_cases hwk : writeOk t.addr 0
            ((t.start_page : Int) + (i : Int) - (((ctr + 1 : Nat) : Int) - 1)) (ctr + 1) = true
        · simp only [flashLoop, hterm, Bool.false_eq_true, if_false, if_pos hfull,
            if_pos hwk, writeCmds_cons_uploadEvent, writeCmds_cons_uploadMsg,
            writeCmds_cons_writeMsg, writeCmds_cons_writeFlash, List.mem_cons] at hw
          rcases hw with hw | hw
          · subst hw
            exact ⟨hc, i, le_refl i, by omega, by rw [hc]⟩
          · obtain ⟨h2, m, hm1, hm2, hm3⟩ :=
              ih (i + 1) 0 (if hasCb then k + 1 else k) (by omega) w hw
            exact ⟨h2, m, by omega, by omega, hm3⟩
        · simp only [flashLoop, hterm, Bool.false_eq_true, if_false, if_pos hfull,
            if_neg hwk] at hw
          simp only [writeCmds_cons_uploadEvent, writeCmds_cons_uploadMsg,
            writeCmds_cons_writeMsg, writeCmds_cons_writeFlash,
            writeCmds_cons_writeFailMsg, writeCmds_nil, List.mem_cons,
            List.not_mem_nil, or_false] at hw
          subst hw
          exact ⟨hc, i, le_refl i, by omega, by rw [hc]⟩
      · have hlt : ctr + 1 < t.buffer_pages := by omega
        simp only [flashLoop, hterm, Bool.false_eq_true, if_false, if_neg hfull,
          writeCmds_cons_uploadEvent, writeCmds_cons_uploadMsg] at hw
        obtain ⟨h2, m, hm1, hm2, hm3⟩ :=
          ih (i + 1) (ctr + 1) (if hasCb then k + 1 else k) hlt w hw
        exact ⟨h2, m, by omega, by omega, hm3⟩

end LoopShape

/-! ### Progress reporting lemmas -/

/-- Percent values are monotone in the progress-step counter. -/
lemma progressPercent_mono (t : TargetInfo) (len : Nat) {k k2 : Nat} (h : k ≤ k2) :
    progressPercent t len k ≤ progressPercent t len k2 := by
  unfold progressPercent
  exact_mod_cast Nat.div_le_div_right (Nat.mul_le_mul_right _ h)

@[simp] lemma progressPercent_zero (t : TargetInfo) (len : Nat) :
    progressPercent t len 0 = 0 := by
  simp [progressPercent]

@[simp] lemma progressPercent_nonneg (t : TargetInfo) (len k : Nat) :
    0 ≤ progressPercent t len k := by
  unfold progressPercent
  exact_mod_cast Nat.zero_le _

section LoopPercents

variable (t : TargetInfo) (image : List Nat) (term : Nat → Bool)
  (writeOk : Nat → Nat → Int → Nat → Bool) (cur tot : Nat)

lemma flashLoop_percents_nocb :
    ∀ fuel i ctr k,
      percents (flashLoop t image false term writeOk cur tot fuel i ctr k).events = [] := by
  intro fuel
  induction fuel with
  | zero => intro i ctr k; simp [flashLoop]
  | succ fuel ih =>
    intro i ctr k
    by_cases hterm : term i
    · simp [flashLoop, hterm]
    · by_cases hfull : ctr + 1 ≥ t.buffer_pages
      · by_cases hwk : writeOk t.addr 0
            ((t.start_page : Int) + (i : Int) - (((ctr + 1 : Nat) : Int) - 1)) (ctr + 1) = true
        · simp only [flashLoop, hterm, Bool.false_eq_true, if_false, if_pos hfull, if_pos hwk,
            percents_cons_uploadEvent, percents_cons_uploadMsg, percents_cons_writeMsg,
            percents_cons_writeFlash, Bool.false_eq_true, if_false]
          exact ih (i + 1) 0 k
        · simp only [flashLoop, hterm, Bool.false_eq_true, if_false, if_pos hfull,
            if_neg hwk, percents_cons_uploadEvent, percents_cons_uploadMsg,
            percents_cons_writeMsg, percents_cons_writeFlash, percents_cons_writeFailMsg,
            percents_nil]
      · simp only [flashLoop, hterm, Bool.false_eq_true, if_false, if_neg hfull,
          percents_cons_uploadEvent, percents_cons_uploadMsg, Bool.false_eq_true, if_false]
        exact ih (i + 1) (ctr + 1) k

lemma flashLoop_percents_cb :
    ∀ fuel i ctr k,
      (∀ p ∈ percents (flashLoop t image true term writeOk cur tot fuel i ctr k).events,
          progressPercent t image.length k ≤ p
            ∧ p ≤ progressPercent t image.length
                (flashLoop t image true term writeOk cur tot fuel i ctr k).k)
      ∧ List.Pairwise (· ≤ ·)
          (percents (flashLoop t image true term writeOk cur tot fuel i ctr k).events)
      ∧ k ≤ (flashLoop t image true term writeOk cur tot fuel i ctr k).k := by
  intro fuel
  induction fuel with
  | zero => intro i ctr k; simp [flashLoop]
  | succ fuel ih =>
    intro i ctr k
    by_cases hterm : term i
    · simp [flashLoop, hterm]
    · by_cases hfull : ctr + 1 ≥ t.buffer_pages
      · by_cases hwk : writeOk t.addr 0
            ((t.start_page : Int) + (i : Int) - (((ctr + 1 : Nat) : Int) - 1)) (ctr + 1) = true
        · simp only [flashLoop, hterm, Bool.false_eq_true, if_false, if_pos hfull, if_pos hwk,
            percents_cons_uploadEvent, percents_cons_uploadMsg, percents_cons_writeMsg,
            percents_cons_writeFlash, if_pos rfl, if_true]
          obtain ⟨hb, hpw, hk⟩ := ih (i + 1) 0 (k + 1)
          refine ⟨?_, ?_, ?_⟩
          · intro p hp
            simp only [List.mem_cons] at hp
            rcases hp with rfl | rfl | hp
            · exact ⟨progressPercent_mono t _ (Nat.le_succ k),
                progressPercent_mono t _ hk⟩
            · exact ⟨progressPercent_mono t _ (Nat.le_succ k),
                progressPercent_mono t _ hk⟩
            · obtain ⟨h1, h2⟩ := hb p hp
              exact ⟨le_trans (progressPercent_mono t _ (Nat.le_succ k)) h1, h2⟩
          · refine List.Pairwise.cons ?_ (List.Pairwise.cons ?_ hpw)
            · intro p hp
              simp only [List.mem_cons] at hp
              rcases hp with rfl | hp
              · exact le_refl _
              · exact (hb p hp).1
            · intro p hp
              exact (hb p hp).1
          · exact le_trans (Nat.le_succ k) hk
        · simp only [flashLoop, hterm, Bool.false_eq_true, if_false, if_pos hfull,
            if_neg hwk, percents_cons_uploadEvent, percents_cons_uploadMsg,
            percents_cons_writeMsg, percents_cons_writeFlash, percents_cons_writeFailMsg,
            percents_nil, if_pos rfl, if_true]
          refine ⟨?_, ?_, Nat.le_succ k⟩
          · intro p hp
            simp only [List.mem_cons, List.not_mem_nil, or_false] at hp
            rcases hp with rfl | rfl | rfl <;>
              exact ⟨progressPercent_mono t _ (Nat.le_succ k), le_refl _⟩
          · simp [List.pairwise_cons]
      · simp only [flashLoop, hterm, Bool.false_eq_true, if_false, if_neg hfull,
          percents_cons_uploadEvent, percents_cons_uploadMsg, if_pos rfl, if_true]
        obtain ⟨hb, hpw, hk⟩ := ih (i + 1) (ctr + 1) (k + 1)
        refine ⟨?_, ?_, le_trans (Nat.le_succ k) hk⟩
        · intro p hp
          simp only [List.mem_cons] at hp
          rcases hp with rfl | hp
          · exact ⟨progressPercent_mono t _ (Nat.le_succ k),
              progressPercent_mono t _ hk⟩
          · obtain ⟨h1, h2⟩ := hb p hp
            exact ⟨le_trans (progressPercent_mono t _ (Nat.le_succ k)) h1, h2⟩
        · refine List.Pairwise.cons ?_ hpw
          intro p hp
          exact (hb p hp).1

end LoopPercents


/-! ### Deck-event absence in the streaming loop -/

@[simp] lemma isDeckPipeline_uploadEvent (t : TargetInfo) (image : List Nat) (i ctr : Nat) :
    (uploadEvent t image i ctr).isDeckPipeline = false := by
  unfold uploadEvent; split <;> rfl

@[simp] lemma isDeckPipeline_uploadMsg (t : TargetInfo) (hasCb : Bool) (cur tot : Nat)
    (p : Int) : (uploadMsg t hasCb cur tot p).isDeckPipeline = false := by
  unfold uploadMsg; split <;> rfl

@[simp] lemma isDeckPipeline_writeMsg (t : TargetInfo) (hasCb : Bool) (cur tot : Nat)
    (p : Int) (n : Nat) : (writeMsg t hasCb cur tot p n).isDeckPipeline = false := by
  unfold writeMsg; split <;> rfl

@[simp] lemma isDeckPipeline_writeFailMsg (hasCb : Bool) (p : Int) :
    (writeFailMsg hasCb p).isDeckPipeline = false := by
  unfold writeFailMsg; split <;> rfl

section NoDeck

variable (t : TargetInfo) (image : List Nat) (hasCb : Bool) (term : Nat → Bool)
  (writeOk : Nat → Nat → Int → Nat → Bool) (cur tot : Nat)

lemma flashLoop_no_deck :
    ∀ fuel i ctr k, ∀ e ∈ (flashLoop t image hasCb term writeOk cur tot fuel i ctr k).events,
      e.isDeckPipeline = false := by
  intro fuel
  induction fuel with
  | zero => intro i ctr k e he; simp [flashLoop] at he
  | succ fuel ih =>
    intro i ctr k e he
    by_cases hterm : term i
    · simp [flashLoop, hterm] at he
    · by_cases hfull : ctr + 1 ≥ t.buffer_pages
      · by_cases hwk : writeOk t.addr 0
            ((t.start_page : Int) + (i : Int) - (((ctr + 1 : Nat) : Int) - 1)) (ctr + 1) = true
        · simp only [flashLoop, hterm, Bool.false_eq_true, if_false, if_pos hfull,
            if_pos hwk, List.mem_cons] at he
          rcases he with rfl | rfl | rfl | rfl | he
          · simp
          · simp
          · simp
          · rfl
          · exact ih (i + 1) 0 _ e he
        · simp only [flashLoop, hterm, Bool.false_eq_true, if_false, if_pos hfull,
            if_neg hwk, List.mem_cons, List.not_mem_nil, or_false] at he
          rcases he with rfl | rfl | rfl | rfl | rfl <;> first | rfl | simp
      · simp only [flashLoop, hterm, Bool.false_eq_true, if_false, if_neg hfull,
          List.mem_cons] at he
        rcases he with rfl | rfl | he
        · simp
        · simp
        · exact ih (i + 1) (ctr + 1) _ e he

lemma internalFlash_no_deck (a : FlashArtifact) :
    ∀ e ∈ (internalFlash t a hasCb term writeOk cur tot).1, e.isDeckPipeline = false := by
  intro e he
  simp only [internalFlash] at he
  set r := flashLoop t a.content hasCb term writeOk cur tot
    (pageCount a.content.length t.page_size) 0 0 0 with hr
  have hloop : ∀ e2 ∈ r.events, e2.isDeckPipeline = false := by
    rw [hr]
    exact fun e2 h2 =>
      flashLoop_no_deck t a.content hasCb term writeOk cur tot _ 0 0 0 e2 h2
  have hstart : ∀ (s1 s2 : String) (p : Int),
      (if hasCb = true then Event.progressMsg s1 p else Event.stdoutMsg s2).isDeckPipeline
        = false := by
    intro s1 s2 p
    split <;> rfl
  have hbytes : ∀ (s1 : String) (e2 : Event),
      e2 ∈ (if hasCb = true then ([] : List Event) else [Event.stdoutMsg s1]) →
        e2.isDeckPipeline = false := by
    intro s1 e2 h2
    split at h2
    · simp at h2
    · simp only [List.mem_cons, List.not_mem_nil, or_false] at h2
      subst h2
      rfl
  by_cases hg : ((a.content.length : Int)
      > ((t.flash_pages : Int) - (t.start_page : Int)) * (t.page_size : Int))
  · rw [if_pos hg] at he
    simp only [List.mem_cons, List.not_mem_nil, or_false] at he
    rcases he with rfl | rfl
    · exact hstart _ _ _
    · exact hstart _ _ _
  · rw [if_neg hg] at he
    rcases hre : r.err with _ | e2
    · rw [hre] at he
      by_cases hc : 0 < r.ctr
      · rw [if_pos hc] at he
        by_cases hwk : writeOk t.addr 0
            ((t.start_page : Int) + (((a.content.length - 1) / t.page_size : Nat) : Int)
              - ((r.ctr : Int) - 1)) r.ctr = true
        · rw [if_pos hwk] at he
          simp only [List.cons_append, List.mem_cons, List.mem_append,
            List.not_mem_nil, or_false, or_assoc] at he
          rcases he with rfl | he | he | rfl | rfl
          · exact hstart _ _ _
          · exact hbytes _ e he
          · exact hloop e he
          · simp
          · rfl
        · rw [if_neg hwk] at he
          simp only [List.cons_append, List.mem_cons, List.mem_append,
            List.not_mem_nil, or_false, or_assoc] at he
          rcases he with rfl | he | he | rfl | rfl | rfl
          · exact hstart _ _ _
          · exact hbytes _ e he
          · exact hloop e he
          · simp
          · rfl
          · simp
      · rw [if_neg hc] at he
        simp only [List.cons_append, List.mem_cons, List.mem_append,
          List.not_mem_nil, or_false, or_assoc] at he
        rcases he with rfl | he | he
        · exact hstart _ _ _
        · exact hbytes _ e he
        · exact hloop e he
    · rw [hre] at he
      simp only [List.cons_append, List.mem_cons, List.mem_append,
        List.not_mem_nil, or_false, or_assoc] at he
      rcases he with rfl | he | he
      · exact hstart _ _ _
      · exact hbytes _ e he
      · exact hloop e he

end NoDeck


/-! ### Page-coverage arithmetic -/

@[simp] lemma intRange_zero (a : Int) : intRange a 0 = [] := rfl

lemma intRange_append (a : Int) (n m : Nat) :
    intRange a n ++ intRange (a + (n : Int)) m = intRange a (n + m) := by
  unfold intRange
  rw [List.range_add, List.map_append, List.map_map]
  congr 1
  refine List.map_congr_left fun j _ => ?_
  simp only [Function.comp_apply]
  push_cast
  ring

@[simp] lemma pagesOfCmds_nil : pagesOfCmds [] = [] := rfl

@[simp] lemma pagesOfCmds_cons (w : Int × Nat) (l : List (Int × Nat)) :
    pagesOfCmds (w :: l) = intRange w.1 w.2 ++ pagesOfCmds l := rfl

@[simp] lemma pagesOfCmds_append (l1 l2 : List (Int × Nat)) :
    pagesOfCmds (l1 ++ l2) = pagesOfCmds l1 ++ pagesOfCmds l2 := by
  simp [pagesOfCmds, List.flatMap_append]

lemma pagesOfCmds_batches (s : Int) (B : Nat) :
    ∀ q, pagesOfCmds ((List.range q).map
        (fun (j : Nat) => (s + (j : Int) * (B : Int), B)))
      = intRange s (q * B) := by
  intro q
  induction q with
  | zero => simp
  | succ q ih =>
    rw [List.range_succ, List.map_append, pagesOfCmds_append, ih]
    simp only [List.map_cons, List.map_nil, pagesOfCmds_cons, pagesOfCmds_nil,
      List.append_nil]
    have h1 : s + (q : Int) * (B : Int) = s + ((q * B : Nat) : Int) := by
      push_cast
      ring
    rw [h1, intRange_append]
    congr 1
    ring

lemma pairwise_lt_dests (s : Int) (B q r : Nat) (hB : 0 < B) :
    List.Pairwise (· < ·)
      ((List.range q).map (fun (j : Nat) => s + (j : Int) * (B : Int))
        ++ (if r = 0 then [] else [s + ((q * B : Nat) : Int)])) := by
  refine List.pairwise_append.mpr ⟨?_, ?_, ?_⟩
  · refine List.Pairwise.map _ ?_ (List.pairwise_lt_range q)
    intro a b hab
    have : (a : Int) * (B : Int) < (b : Int) * (B : Int) := by
      have hBI : (0 : Int) < (B : Int) := by exact_mod_cast hB
      exact mul_lt_mul_of_pos_right (by exact_mod_cast hab) hBI
    omega
  · split
    · exact List.Pairwise.nil
    · exact List.pairwise_singleton _ _
  · intro x hx y hy
    simp only [List.mem_map] at hx
    obtain ⟨j, hj, rfl⟩ := hx
    have hjq : j < q := List.mem_range.mp hj
    split at hy
    · simp at hy
    · simp only [List.mem_cons, List.not_mem_nil, or_false] at hy
      subst hy
      have : (j : Int) * (B : Int) < ((q * B : Nat) : Int) := by
        have : (j + 1) * B ≤ q * B := Nat.mul_le_mul_right B hjq
        push_cast
        nlinarith
      omega


lemma writeCmds_cons_ite (c : Prop) [Decidable c] (s1 s2 : String) (p : Int) (l : List Event) :
    writeCmds ((if c then Event.progressMsg s1 p else Event.stdoutMsg s2) :: l)
      = writeCmds l := by
  split <;> rfl

lemma writeCmds_bytes (c : Prop) [Decidable c] (s1 : String) (l : List Event) :
    writeCmds ((if c then ([] : List Event) else [Event.stdoutMsg s1]) ++ l)
      = writeCmds l := by
  split <;> simp

section Characterize

variable (t : TargetInfo) (a : FlashArtifact) (hasCb : Bool) (term : Nat → Bool)
  (writeOk : Nat → Nat → Int → Nat → Bool) (cur tot : Nat)

/-- On a successful run, the `write_flash` commands of `_internal_flash` are
exactly `P / B` full batches of `B` pages starting at `start_page`,
followed, when `P % B ≠ 0`, by one residual batch of `P % B` pages
(`P` the page count, `B = buffer_pages`). -/
lemma internalFlash_success_writes (hB : 0 < t.buffer_pages)
    (hok : (internalFlash t a hasCb term writeOk cur tot).2 = none) :
    writeCmds (internalFlash t a hasCb term writeOk cur tot).1
      = (List.range (pageCount a.content.length t.page_size / t.buffer_pages)).map
          (fun (j : Nat) => ((t.start_page : Int) + (j : Int) * (t.buffer_pages : Int),
            t.buffer_pages))
        ++ (if pageCount a.content.length t.page_size % t.buffer_pages = 0 then []
            else [((t.start_page : Int)
                + ((pageCount a.content.length t.page_size
                    - pageCount a.content.length t.page_size % t.buffer_pages : Nat) : Int),
              pageCount a.content.length t.page_size % t.buffer_pages)]) := by
  simp only [internalFlash] at hok ⊢
  set P := pageCount a.content.length t.page_size with hP
  set r := flashLoop t a.content hasCb term writeOk cur tot P 0 0 0 with hr
  by_cases hg : ((a.content.length : Int)
      > ((t.flash_pages : Int) - (t.start_page : Int)) * (t.page_size : Int))
  · rw [if_pos hg] at hok
    simp at hok
  · rw [if_neg hg] at hok ⊢
    rcases hre : r.err with _ | e2
    · obtain ⟨hcmds, hctr⟩ := flashLoop_success_cmds t a.content hasCb term writeOk cur tot
        hB P 0 0 0 hB (by rw [← hr]; exact hre)
      rw [← hr] at hcmds hctr
      simp only [Nat.zero_add, Nat.cast_zero, sub_zero, add_zero] at hcmds hctr
      simp only [hre] at hok ⊢
      set m := P % t.buffer_pages with hm
      have hle : m ≤ P := by rw [hm]; exact Nat.mod_le P t.buffer_pages
      have hP1 : 1 ≤ P := by
        rw [hP]; unfold pageCount; exact Nat.succ_le_succ (Nat.zero_le _)
      have hdiv : (a.content.length - 1) / t.page_size = P - 1 := by
        rw [hP]; unfold pageCount; exact (Nat.add_sub_cancel _ _).symm
      by_cases hc : 0 < r.ctr
      · rw [if_pos hc] at hok ⊢
        have hmod : m ≠ 0 := by rw [hctr] at hc; omega
        by_cases hwk : writeOk t.addr 0
            ((t.start_page : Int) + (((a.content.length - 1) / t.page_size : Nat) : Int)
              - ((r.ctr : Int) - 1)) r.ctr = true
        · rw [if_pos hwk]
          dsimp only
          rw [List.cons_append, List.cons_append, writeCmds_cons_ite, List.append_assoc,
            writeCmds_bytes, writeCmds_append, hcmds]
          simp only [writeCmds_cons_writeMsg, writeCmds_cons_writeFlash, writeCmds_nil]
          rw [if_neg hmod, hdiv, hctr]
          have heq : (t.start_page : Int) + ((P - 1 : Nat) : Int) - ((m : Int) - 1)
              = (t.start_page : Int) + ((P - m : Nat) : Int) := by omega
          rw [heq]
        · rw [if_neg hwk] at hok
          simp at hok
      · rw [if_neg hc] at hok ⊢
        have hmod : m = 0 := by rw [hctr] at hc; omega
        dsimp only
        rw [List.cons_append, writeCmds_cons_ite, writeCmds_bytes, hcmds, if_pos hmod,
          List.append_nil]
    · simp only [hre] at hok
      simp at hok

end Characterize


section WritesCases

variable (t : TargetInfo) (a : FlashArtifact) (hasCb : Bool) (term : Nat → Bool)
  (writeOk : Nat → Nat → Int → Nat → Bool) (cur tot : Nat)

/-- Every `write_flash` issued by `_internal_flash` (successful run or not)
is either a full batch of exactly `buffer_pages` pages, or the final
residual batch of fewer pages. -/
lemma internalFlash_writes_cases (hB : 0 < t.buffer_pages) :
    ∀ w ∈ writeCmds (internalFlash t a hasCb term writeOk cur tot).1,
      w.2 = t.buffer_pages
        ∨ (0 < w.2 ∧ w.2 < t.buffer_pages
            ∧ (writeCmds (internalFlash t a hasCb term writeOk cur tot).1).getLast?
                = some w) := by
  intro w hw
  simp only [internalFlash] at hw ⊢
  set P := pageCount a.content.length t.page_size with hP
  set r := flashLoop t a.content hasCb term writeOk cur tot P 0 0 0 with hr
  have hshape := flashLoop_cmds_shape t a.content hasCb term writeOk cur tot P 0 0 0 hB
  rw [← hr] at hshape
  by_cases hg : ((a.content.length : Int)
      > ((t.flash_pages : Int) - (t.start_page : Int)) * (t.page_size : Int))
  · rw [if_pos hg] at hw
    rw [writeCmds_cons_ite, writeCmds_cons_ite] at hw
    simp at hw
  · rw [if_neg hg] at hw ⊢
    rcases hre : r.err with _ | e2
    · simp only [hre] at hw ⊢
      obtain ⟨hcmds, hctr⟩ := flashLoop_success_cmds t a.content hasCb term writeOk cur tot
        hB P 0 0 0 hB (by rw [← hr]; exact hre)
      rw [← hr] at hctr
      by_cases hc : 0 < r.ctr
      · rw [if_pos hc] at hw ⊢
        have hlt : r.ctr < t.buffer_pages := by
          rw [hctr, Nat.zero_add]
          exact Nat.mod_lt P hB
        by_cases hwk : writeOk t.addr 0
            ((t.start_page : Int) + (((a.content.length - 1) / t.page_size : Nat) : Int)
              - ((r.ctr : Int) - 1)) r.ctr = true
        · rw [if_pos hwk] at hw ⊢
          try dsimp only at hw ⊢
          rw [List.cons_append, List.cons_append, writeCmds_cons_ite, List.append_assoc,
            writeCmds_bytes, writeCmds_append] at hw ⊢
          simp only [writeCmds_cons_writeMsg, writeCmds_cons_writeFlash, writeCmds_nil]
            at hw ⊢
          rcases List.mem_append.mp hw with hmem | hmem
          · exact Or.inl (hshape w hmem).1
          · simp only [List.mem_cons, List.not_mem_nil, or_false] at hmem
            subst hmem
            exact Or.inr ⟨hc, hlt, List.getLast?_concat _⟩
        · rw [if_neg hwk] at hw ⊢
          try dsimp only at hw ⊢
          rw [List.cons_append, List.cons_append, writeCmds_cons_ite, List.append_assoc,
            writeCmds_bytes, writeCmds_append] at hw ⊢
          simp only [writeCmds_cons_writeMsg, writeCmds_cons_writeFlash,
            writeCmds_cons_writeFailMsg, writeCmds_nil] at hw ⊢
          rcases List.mem_append.mp hw with hmem | hmem
          · exact Or.inl (hshape w hmem).1
          · simp only [List.mem_cons, List.not_mem_nil, or_false] at hmem
            subst hmem
            exact Or.inr ⟨hc, hlt, List.getLast?_concat _⟩
      · rw [if_neg hc] at hw ⊢
        try dsimp only at hw ⊢
        rw [List.cons_append, writeCmds_cons_ite, writeCmds_bytes] at hw ⊢
        exact Or.inl (hshape w hw).1
    · simp only [hre] at hw ⊢
      try dsimp only at hw ⊢
      rw [List.cons_append, writeCmds_cons_ite, writeCmds_bytes] at hw ⊢
      exact Or.inl (hshape w hw).1

end WritesCases


/-- C1: for every image of length at least 1 byte flashed successfully by
`_internal_flash` onto a target with geometry `t` (valid geometry:
positive page size and buffer capacity), the `write_flash` commands cover
exactly the device pages `start_page … start_page + ceil(len/page_size) - 1`,
each page written exactly once and in ascending order, and the commands are
issued in strictly ascending destination-page order. -/
theorem internalFlash_page_coverage
    (t : TargetInfo) (a : FlashArtifact) (hasCb : Bool) (term : Nat → Bool)
    (writeOk : Nat → Nat → Int → Nat → Bool) (cur tot : Nat)
    (hps : 0 < t.page_size) (hB : 0 < t.buffer_pages) (hlen : 1 ≤ a.content.length)
    (hok : (internalFlash t a hasCb term writeOk cur tot).2 = none) :
    pagesWritten (internalFlash t a hasCb term writeOk cur tot).1
        = intRange (t.start_page : Int)
            ((a.content.length + t.page_size - 1) / t.page_size)
      ∧ List.Pairwise (· < ·)
          ((writeCmds (internalFlash t a hasCb term writeOk cur tot).1).map Prod.fst) := by
  have hchar := internalFlash_success_writes t a hasCb term writeOk cur tot hB hok
  set P := pageCount a.content.length t.page_size with hP
  have hceil : (a.content.length + t.page_size - 1) / t.page_size = P := by
    rw [hP]
    unfold pageCount
    have h1 : a.content.length + t.page_size - 1
        = (a.content.length - 1) + t.page_size := by omega
    rw [h1, Nat.add_div_right _ hps]
  have hqm : P / t.buffer_pages * t.buffer_pages + P % t.buffer_pages = P := by
    rw [Nat.mul_comm]
    exact Nat.div_add_mod P t.buffer_pages
  constructor
  · rw [pagesWritten, hchar, hceil, pagesOfCmds_append, pagesOfCmds_batches]
    by_cases hmod : P % t.buffer_pages = 0
    · rw [if_pos hmod]
      simp only [pagesOfCmds_nil, List.append_nil]
      congr 1
      omega
    · rw [if_neg hmod]
      simp only [pagesOfCmds_cons, pagesOfCmds_nil, List.append_nil]
      have h2 : (t.start_page : Int)
            + ((P - P % t.buffer_pages : Nat) : Int)
          = (t.start_page : Int)
            + ((P / t.buffer_pages * t.buffer_pages : Nat) : Int) := by omega
      rw [h2, intRange_append, hqm]
  · rw [hchar, List.map_append, List.map_map]
    have hfun : ((Prod.fst : Int × Nat → Int) ∘ fun (j : Nat) =>
          ((t.start_page : Int) + (j : Int) * (t.buffer_pages : Int), t.buffer_pages))
        = fun (j : Nat) => (t.start_page : Int) + (j : Int) * (t.buffer_pages : Int) := rfl
    rw [hfun]
    have hres : List.map (Prod.fst : Int × Nat → Int)
          (if P % t.buffer_pages = 0 then []
            else [((t.start_page : Int) + ((P - P % t.buffer_pages : Nat) : Int),
              P % t.buffer_pages)])
        = (if P % t.buffer_pages = 0 then []
            else [(t.start_page : Int)
              + ((P / t.buffer_pages * t.buffer_pages : Nat) : Int)]) := by
      split
      · rfl
      · simp only [List.map_cons, List.map_nil]
        congr 2
        omega
    rw [hres]
    exact pairwise_lt_dests (t.start_page : Int) t.buffer_pages
      (P / t.buffer_pages) (P % t.buffer_pages) hB

/-- C1 witness: a 9-byte image on geometry `(page_size 4, buffer 2,
128 flash pages from page 1)` covers pages 1, 2, 3. -/
theorem internalFlash_page_coverage_witness :
    pagesWritten (internalFlash ⟨0xFF, 5, 4, 2, 10, 1⟩
        ⟨List.replicate 9 7, ⟨"cf2", "stm32", "fw"⟩⟩ true (fun _ => false)
        (fun _ _ _ _ => true) 1 1).1
        = intRange ((TargetInfo.mk 0xFF 5 4 2 10 1).start_page : Int)
            (((List.replicate 9 7).length + 4 - 1) / 4)
      ∧ List.Pairwise (· < ·)
          ((writeCmds (internalFlash ⟨0xFF, 5, 4, 2, 10, 1⟩
            ⟨List.replicate 9 7, ⟨"cf2", "stm32", "fw"⟩⟩ true (fun _ => false)
            (fun _ _ _ _ => true) 1 1).1).map Prod.fst) :=
  internalFlash_page_coverage ⟨0xFF, 5, 4, 2, 10, 1⟩
    ⟨List.replicate 9 7, ⟨"cf2", "stm32", "fw"⟩⟩ true (fun _ => false)
    (fun _ _ _ _ => true) 1 1 (by decide) (by decide) (by decide) (by decide)

/-- C2: for every image and geometry with `buffer_pages ≥ 1`, every
`write_flash` issued by `_internal_flash` programs between 1 and
`buffer_pages` pages; every command except possibly the last programs
exactly `buffer_pages` pages, and a command of fewer pages can only be the
final residual one. -/
theorem internalFlash_batch_bound
    (t : TargetInfo) (a : FlashArtifact) (hasCb : Bool) (term : Nat → Bool)
    (writeOk : Nat → Nat → Int → Nat → Bool) (cur tot : Nat)
    (hB : 0 < t.buffer_pages) :
    (∀ w ∈ writeCmds (internalFlash t a hasCb term writeOk cur tot).1,
        0 < w.2 ∧ w.2 ≤ t.buffer_pages)
    ∧ (∀ w ∈ writeCmds (internalFlash t a hasCb term writeOk cur tot).1,
        w.2 = t.buffer_pages
          ∨ (w.2 < t.buffer_pages
              ∧ (writeCmds (internalFlash t a hasCb term writeOk cur tot).1).getLast?
                  = some w)) := by
  have hcases := internalFlash_writes_cases t a hasCb term writeOk cur tot hB
  constructor
  · intro w hw
    rcases hcases w hw with h | ⟨h1, h2, _⟩
    · exact ⟨h ▸ hB, h.le⟩
    · exact ⟨h1, h2.le⟩
  · intro w hw
    rcases hcases w hw with h | ⟨_, h2, h3⟩
    · exact Or.inl h
    · exact Or.inr ⟨h2, h3⟩

/-- C2 witness: on the 9-byte image of the C1 witness the two issued
commands are a full 2-page batch and a 1-page residual. -/
theorem internalFlash_batch_bound_witness :
    (∀ w ∈ writeCmds (internalFlash ⟨0xFF, 5, 4, 2, 10, 1⟩
        ⟨List.replicate 9 7, ⟨"cf2", "stm32", "fw"⟩⟩ true (fun _ => false)
        (fun _ _ _ _ => true) 1 1).1,
        0 < w.2 ∧ w.2 ≤ (TargetInfo.mk 0xFF 5 4 2 10 1).buffer_pages)
    ∧ (∀ w ∈ writeCmds (internalFlash ⟨0xFF, 5, 4, 2, 10, 1⟩
        ⟨List.replicate 9 7, ⟨"cf2", "stm32", "fw"⟩⟩ true (fun _ => false)
        (fun _ _ _ _ => true) 1 1).1,
        w.2 = (TargetInfo.mk 0xFF 5 4 2 10 1).buffer_pages
          ∨ (w.2 < (TargetInfo.mk 0xFF 5 4 2 10 1).buffer_pages
              ∧ (writeCmds (internalFlash ⟨0xFF, 5, 4, 2, 10, 1⟩
                  ⟨List.replicate 9 7, ⟨"cf2", "stm32", "fw"⟩⟩ true (fun _ => false)
                  (fun _ _ _ _ => true) 1 1).1).getLast? = some w)) :=
  internalFlash_batch_bound ⟨0xFF, 5, 4, 2, 10, 1⟩
    ⟨List.replicate 9 7, ⟨"cf2", "stm32", "fw"⟩⟩ true (fun _ => false)
    (fun _ _ _ _ => true) 1 1 (by decide)


@[simp] lemma uploadEvs_cons_ite (c : Prop) [Decidable c] (s1 s2 : String) (p : Int)
    (l : List Event) :
    uploadEvs ((if c then Event.progressMsg s1 p else Event.stdoutMsg s2) :: l)
      = uploadEvs l := by
  split <;> rfl

/-- Trace predicate formalizing the destination-derivation rule of
`_internal_flash`.  It threads the running count `u` of `upload_buffer`
events seen so far and checks two things along the trace: the `u`-th
`upload_buffer` (zero-based) carries exactly page `u` of the image — pages
are uploaded in order `0, 1, 2, …`, so after `u` uploads the most recently
uploaded page has zero-based index `k = u - 1` — and every `write_flash` of
`n` pages targets destination `start_page + (u - 1) - (n - 1)`, i.e.
`start_page + k - (n - 1)` for `k` the index of the most recently uploaded
page. -/
def destsDerived (image : List Nat) (ps : Nat) (sp : Int) : Nat → List Event → Bool
  | _, [] => true
  | u, Event.uploadBuffer _ _ _ data :: rest =>
      (data == (if (u + 1) * ps > image.length then image.drop (u * ps)
                else (image.drop (u * ps)).take ps))
        && destsDerived image ps sp (u + 1) rest
  | u, Event.writeFlash _ _ d n :: rest =>
      (d == sp + ((u : Int) - 1) - ((n : Int) - 1)) && destsDerived image ps sp u rest
  | u, _ :: rest => destsDerived image ps sp u rest

@[simp] lemma destsDerived_nil (image : List Nat) (ps : Nat) (sp : Int) (u : Nat) :
    destsDerived image ps sp u [] = true := rfl

@[simp] lemma destsDerived_cons_uploadBuffer (image : List Nat) (ps : Nat) (sp : Int)
    (u a b o : Nat) (data : List Nat) (l : List Event) :
    destsDerived image ps sp u (Event.uploadBuffer a b o data :: l)
      = ((data == (if (u + 1) * ps > image.length then image.drop (u * ps)
            else (image.drop (u * ps)).take ps))
        && destsDerived image ps sp (u + 1) l) := rfl

@[simp] lemma destsDerived_cons_writeFlash (image : List Nat) (ps : Nat) (sp : Int)
    (u a b : Nat) (d : Int) (n : Nat) (l : List Event) :
    destsDerived image ps sp u (Event.writeFlash a b d n :: l)
      = ((d == sp + ((u : Int) - 1) - ((n : Int) - 1)) && destsDerived image ps sp u l) := rfl

@[simp] lemma destsDerived_cons_progressMsg (image : List Nat) (ps : Nat) (sp : Int)
    (u : Nat) (m : String) (p : Int) (l : List Event) :
    destsDerived image ps sp u (Event.progressMsg m p :: l)
      = destsDerived image ps sp u l := rfl

@[simp] lemma destsDerived_cons_stdoutMsg (image : List Nat) (ps : Nat) (sp : Int)
    (u : Nat) (m : String) (l : List Event) :
    destsDerived image ps sp u (Event.stdoutMsg m :: l)
      = destsDerived image ps sp u l := rfl

lemma destsDerived_cons_ite (image : List Nat) (ps : Nat) (sp : Int) (u : Nat)
    (c : Prop) [Decidable c] (s1 s2 : String) (p : Int) (l : List Event) :
    destsDerived image ps sp u
        ((if c then Event.progressMsg s1 p else Event.stdoutMsg s2) :: l)
      = destsDerived image ps sp u l := by
  split <;> rfl

lemma destsDerived_bytes (image : List Nat) (ps : Nat) (sp : Int) (u : Nat)
    (c : Prop) [Decidable c] (s1 : String) (l : List Event) :
    destsDerived image ps sp u
        ((if c then ([] : List Event) else [Event.stdoutMsg s1]) ++ l)
      = destsDerived image ps sp u l := by
  split
  · rw [List.nil_append]
  · rw [List.cons_append, List.nil_append, destsDerived_cons_stdoutMsg]

lemma destsDerived_cons_uploadMsg (image : List Nat) (ps : Nat) (sp : Int) (u : Nat)
    (t : TargetInfo) (hasCb : Bool) (cur tot : Nat) (p : Int) (l : List Event) :
    destsDerived image ps sp u (uploadMsg t hasCb cur tot p :: l)
      = destsDerived image ps sp u l := by
  unfold uploadMsg
  split <;> rfl

lemma destsDerived_cons_writeMsg (image : List Nat) (ps : Nat) (sp : Int) (u : Nat)
    (t : TargetInfo) (hasCb : Bool) (cur tot : Nat) (p : Int) (n : Nat) (l : List Event) :
    destsDerived image ps sp u (writeMsg t hasCb cur tot p n :: l)
      = destsDerived image ps sp u l := by
  unfold writeMsg
  split <;> rfl

lemma destsDerived_cons_writeFailMsg (image : List Nat) (ps : Nat) (sp : Int) (u : Nat)
    (hasCb : Bool) (p : Int) (l : List Event) :
    destsDerived image ps sp u (writeFailMsg hasCb p :: l)
      = destsDerived image ps sp u l := by
  unfold writeFailMsg
  split <;> rfl

/-- Stepping `destsDerived` over the `upload_buffer` event of loop iteration
`i` at upload count `i`: the payload is exactly page `i` of the image, so the
check succeeds and the count advances to `i + 1`. -/
lemma destsDerived_uploadEvent (image : List Nat) (sp : Int) (t : TargetInfo)
    (i ctr : Nat) (l : List Event) :
    destsDerived image t.page_size sp i (uploadEvent t image i ctr :: l)
      = destsDerived image t.page_size sp (i + 1) l := by
  unfold uploadEvent
  split
  · rename_i h
    rw [destsDerived_cons_uploadBuffer, if_pos h, beq_self_eq_true, Bool.true_and]
  · rename_i h
    rw [destsDerived_cons_uploadBuffer, if_neg h, beq_self_eq_true, Bool.true_and]

section DestDerivationLoop

variable (t : TargetInfo) (image : List Nat) (hasCb : Bool) (term : Nat → Bool)
  (writeOk : Nat → Nat → Int → Nat → Bool) (cur tot : Nat)

/-- The upload loop, entered at page index `i` with `i` pages already
uploaded, satisfies the destination-derivation predicate on every run:
on success it hands the upload count `i + fuel` on to any continuation of
the trace, and on termination or a nacked `write_flash` the emitted prefix
(including the nacked write) already satisfies the predicate. -/
lemma flashLoop_destsDerived :
    ∀ fuel i ctr k,
      ((flashLoop t image hasCb term writeOk cur tot fuel i ctr k).err = none →
        ∀ tail : List Event,
          destsDerived image t.page_size (t.start_page : Int) (i + fuel) tail = true →
          destsDerived image t.page_size (t.start_page : Int) i
            ((flashLoop t image hasCb term writeOk cur tot fuel i ctr k).events ++ tail)
            = true)
      ∧ ((flashLoop t image hasCb term writeOk cur tot fuel i ctr k).err ≠ none →
        destsDerived image t.page_size (t.start_page : Int) i
          (flashLoop t image hasCb term writeOk cur tot fuel i ctr k).events = true) := by
  intro fuel
  induction fuel with
  | zero =>
    intro i ctr k
    constructor
    · intro _ tail htail
      rw [Nat.add_zero] at htail
      simp only [flashLoop, List.nil_append]
      exact htail
    · intro h
      simp [flashLoop] at h
  | succ fuel ih =>
    intro i ctr k
    by_cases hterm : term i
    · constructor
      · intro hok _ _
        simp [flashLoop, hterm] at hok
      · intro _
        simp [flashLoop, hterm]
    · by_cases hfull : ctr + 1 ≥ t.buffer_pages
      · by_cases hwk : writeOk t.addr 0
            ((t.start_page : Int) + (i : Int) - (((ctr + 1 : Nat) : Int) - 1)) (ctr + 1) = true
        · obtain ⟨ih1, ih2⟩ := ih (i + 1) 0 (if hasCb then k + 1 else k)
          constructor
          · intro hok tail htail
            simp only [flashLoop, hterm, Bool.false_eq_true, if_false, if_pos hfull,
              if_pos hwk] at hok ⊢
            simp only [List.cons_append]
            rw [destsDerived_uploadEvent, destsDerived_cons_uploadMsg,
              destsDerived_cons_writeMsg, destsDerived_cons_writeFlash]
            rw [Bool.and_eq_true]
            refine ⟨?_, ?_⟩
            · rw [beq_iff_eq]
              push_cast
              ring
            · refine ih1 hok tail ?_
              have harg : i + 1 + fuel = i + (fuel + 1) := by omega
              rw [harg]
              exact htail
          · intro herr
            simp only [flashLoop, hterm, Bool.false_eq_true, if_false, if_pos hfull,
              if_pos hwk] at herr ⊢
            rw [destsDerived_uploadEvent, destsDerived_cons_uploadMsg,
              destsDerived_cons_writeMsg, destsDerived_cons_writeFlash]
            rw [Bool.and_eq_true]
            refine ⟨?_, ?_⟩
            · rw [beq_iff_eq]
              push_cast
              ring
            · exact ih2 herr
        · constructor
          · intro hok _ _
            simp only [flashLoop, hterm, Bool.false_eq_true, if_false, if_pos hfull,
              if_neg hwk] at hok
            exact absurd hok (by simp)
          · intro _
            simp only [flashLoop, hterm, Bool.false_eq_true, if_false, if_pos hfull,
              if_neg hwk]
            rw [destsDerived_uploadEvent, destsDerived_cons_uploadMsg,
              destsDerived_cons_writeMsg, destsDerived_cons_writeFlash]
            rw [Bool.and_eq_true]
            refine ⟨?_, ?_⟩
            · rw [beq_iff_eq]
              push_cast
              ring
            · rw [destsDerived_cons_writeFailMsg]
              rfl
      · obtain ⟨ih1, ih2⟩ := ih (i + 1) (ctr + 1) (if hasCb then k + 1 else k)
        constructor
        · intro hok tail htail
          simp only [flashLoop, hterm, Bool.false_eq_true, if_false, if_neg hfull] at hok ⊢
          simp only [List.cons_append]
          rw [destsDerived_uploadEvent, destsDerived_cons_uploadMsg]
          refine ih1 hok tail ?_
          have harg : i + 1 + fuel = i + (fuel + 1) := by omega
          rw [harg]
          exact htail
        · intro herr
          simp only [flashLoop, hterm, Bool.false_eq_true, if_false, if_neg hfull] at herr ⊢
          rw [destsDerived_uploadEvent, destsDerived_cons_uploadMsg]
          exact ih2 herr

end DestDerivationLoop

section DestDerivationFlash

variable (t : TargetInfo) (a : FlashArtifact) (hasCb : Bool) (term : Nat → Bool)
  (writeOk : Nat → Nat → Int → Nat → Bool) (cur tot : Nat)

/-- The whole trace of `_internal_flash` satisfies the destination-derivation
predicate, on every run: successful, cancelled, out of space, or stopped by a
nacked `write_flash` (whose emitted command is covered too).  In particular
every emitted `write_flash` of `n` pages — in-loop full buffer or residual —
targets `start_page + k - (n - 1)` for `k` the index of the most recently
uploaded page. -/
lemma internalFlash_destsDerived :
    destsDerived a.content t.page_size (t.start_page : Int) 0
      (internalFlash t a hasCb term writeOk cur tot).1 = true := by
  simp only [internalFlash]
  set P := pageCount a.content.length t.page_size with hP
  set r := flashLoop t a.content hasCb term writeOk cur tot P 0 0 0 with hr
  obtain ⟨hl1, hl2⟩ := flashLoop_destsDerived t a.content hasCb term writeOk cur tot P 0 0 0
  rw [← hr] at hl1 hl2
  have hP1 : 1 ≤ P := by
    rw [hP]
    unfold pageCount
    exact Nat.succ_le_succ (Nat.zero_le _)
  have hdiv : (a.content.length - 1) / t.page_size = P - 1 := by
    rw [hP]
    unfold pageCount
    exact (Nat.add_sub_cancel _ _).symm
  by_cases hg : ((a.content.length : Int)
      > ((t.flash_pages : Int) - (t.start_page : Int)) * (t.page_size : Int))
  · rw [if_pos hg]
    dsimp only
    rw [destsDerived_cons_ite, destsDerived_cons_ite]
    rfl
  · rw [if_neg hg]
    rcases hre : r.err with _ | e2
    · simp only [hre]
      by_cases hc : 0 < r.ctr
      · rw [if_pos hc]
        by_cases hwk : writeOk t.addr 0
            ((t.start_page : Int) + (((a.content.length - 1) / t.page_size : Nat) : Int)
              - ((r.ctr : Int) - 1)) r.ctr = true
        · rw [if_pos hwk]
          dsimp only
          simp only [List.cons_append]
          rw [destsDerived_cons_ite, List.append_assoc, destsDerived_bytes]
          refine hl1 hre _ ?_
          rw [Nat.zero_add]
          rw [destsDerived_cons_writeMsg, destsDerived_cons_writeFlash]
          rw [Bool.and_eq_true]
          refine ⟨?_, rfl⟩
          rw [beq_iff_eq, hdiv]
          omega
        · rw [if_neg hwk]
          dsimp only
          simp only [List.cons_append]
          rw [destsDerived_cons_ite, List.append_assoc, destsDerived_bytes]
          refine hl1 hre _ ?_
          rw [Nat.zero_add]
          rw [destsDerived_cons_writeMsg, destsDerived_cons_writeFlash]
          rw [Bool.and_eq_true]
          refine ⟨?_, ?_⟩
          · rw [beq_iff_eq, hdiv]
            omega
          · rw [destsDerived_cons_writeFailMsg]
            rfl
      · rw [if_neg hc]
        dsimp only
        simp only [List.cons_append]
        rw [destsDerived_cons_ite, destsDerived_bytes]
        have h0 := hl1 hre [] (by rfl)
        rw [List.append_nil] at h0
        exact h0
    · simp only [hre]
      try dsimp only
      simp only [List.cons_append]
      rw [destsDerived_cons_ite, destsDerived_bytes]
      exact hl2 (by simp [hre])

end DestDerivationFlash

/-- C3: every `write_flash` emitted by `_internal_flash` — full-buffer or
residual, acknowledged by the device or not — obeys the destination-derivation
rule `dest = start_page + k - (n - 1)` where `n` is the number of pages
written and `k` is the zero-based index of the most recently uploaded page.
This is formalized by the trace predicate `destsDerived`, which checks along
the emitted event list that the `u`-th `upload_buffer` carries exactly page
`u` of the image (so the most recently uploaded page after `u` uploads is
`k = u - 1`) and that every `write_flash` of `n` pages targets
`start_page + (u - 1) - (n - 1)`.  Moreover, on a successful run whose page
count `P = ceil(len/page_size)` is not a multiple of `buffer_pages`
(equivalently the buffer counter is positive after the upload loop), the
residual `write_flash` is the last command and its destination is
`start_page + (P - 1) - (ctr - 1)` with `ctr = P % buffer_pages`. -/
theorem internalFlash_dest_derivation
    (t : TargetInfo) (a : FlashArtifact) (hasCb : Bool) (term : Nat → Bool)
    (writeOk : Nat → Nat → Int → Nat → Bool) (cur tot : Nat)
    (hps : 0 < t.page_size) (hB : 0 < t.buffer_pages) (hlen : 1 ≤ a.content.length) :
    destsDerived a.content t.page_size (t.start_page : Int) 0
        (internalFlash t a hasCb term writeOk cur tot).1 = true
    ∧ ((internalFlash t a hasCb term writeOk cur tot).2 = none →
        ((a.content.length + t.page_size - 1) / t.page_size) % t.buffer_pages ≠ 0 →
        (writeCmds (internalFlash t a hasCb term writeOk cur tot).1).getLast?
          = some ((t.start_page : Int)
              + (((a.content.length + t.page_size - 1) / t.page_size - 1 : Nat) : Int)
              - ((((a.content.length + t.page_size - 1) / t.page_size
                  % t.buffer_pages : Nat) : Int) - 1),
            ((a.content.length + t.page_size - 1) / t.page_size) % t.buffer_pages)) := by
  refine ⟨internalFlash_destsDerived t a hasCb term writeOk cur tot, ?_⟩
  intro hok hmod
  have hchar := internalFlash_success_writes t a hasCb term writeOk cur tot hB hok
  set P := pageCount a.content.length t.page_size with hP
  have hceil : (a.content.length + t.page_size - 1) / t.page_size = P := by
    rw [hP]
    unfold pageCount
    have h1 : a.content.length + t.page_size - 1
        = (a.content.length - 1) + t.page_size := by omega
    rw [h1, Nat.add_div_right _ hps]
  have hP1 : 1 ≤ P := by
    rw [hP]
    unfold pageCount
    exact Nat.succ_le_succ (Nat.zero_le _)
  have hmodle : P % t.buffer_pages ≤ P := Nat.mod_le P t.buffer_pages
  rw [hceil] at hmod ⊢
  rw [hchar, if_neg hmod]
  rw [List.getLast?_concat]
  congr 2
  omega

/-- C3 witness: 9-byte image, 4-byte pages, 2-page buffer: the whole emitted
trace satisfies the destination-derivation predicate — uploads are pages 0,
1, 2 in order, the full-buffer write of 2 pages after uploading page 1 lands
on `start_page + 1 - 1` and the residual 1-page write after uploading page 2
lands on `start_page + 2` — and the residual write is the last command. -/
theorem internalFlash_dest_derivation_witness :
    destsDerived (FlashArtifact.mk (List.replicate 9 7) ⟨"cf2", "stm32", "fw"⟩).content
        (TargetInfo.mk 0xFF 5 4 2 10 1).page_size
        ((TargetInfo.mk 0xFF 5 4 2 10 1).start_page : Int) 0
        (internalFlash ⟨0xFF, 5, 4, 2, 10, 1⟩
          ⟨List.replicate 9 7, ⟨"cf2", "stm32", "fw"⟩⟩ true (fun _ => false)
          (fun _ _ _ _ => true) 1 1).1 = true
    ∧ (writeCmds (internalFlash ⟨0xFF, 5, 4, 2, 10, 1⟩
          ⟨List.replicate 9 7, ⟨"cf2", "stm32", "fw"⟩⟩ true (fun _ => false)
          (fun _ _ _ _ => true) 1 1).1).getLast?
        = some (((TargetInfo.mk 0xFF 5 4 2 10 1).start_page : Int)
            + ((((List.replicate 9 7).length + 4 - 1) / 4 - 1 : Nat) : Int)
            - (((((List.replicate 9 7).length + 4 - 1) / 4
                % (TargetInfo.mk 0xFF 5 4 2 10 1).buffer_pages : Nat) : Int) - 1),
          (((List.replicate 9 7).length + 4 - 1) / 4)
            % (TargetInfo.mk 0xFF 5 4 2 10 1).buffer_pages) :=
  ⟨(internalFlash_dest_derivation ⟨0xFF, 5, 4, 2, 10, 1⟩
      ⟨List.replicate 9 7, ⟨"cf2", "stm32", "fw"⟩⟩ true (fun _ => false)
      (fun _ _ _ _ => true) 1 1 (by decide) (by decide) (by decide)).1,
   (internalFlash_dest_derivation ⟨0xFF, 5, 4, 2, 10, 1⟩
      ⟨List.replicate 9 7, ⟨"cf2", "stm32", "fw"⟩⟩ true (fun _ => false)
      (fun _ _ _ _ => true) 1 1 (by decide) (by decide) (by decide)).2
     (by decide) (by decide)⟩

/-- C4: an image longer than `(flash_pages - start_page) * page_size`
makes `_internal_flash` raise the insufficient-space error before any
`upload_buffer` or `write_flash` command is issued. -/
theorem internalFlash_size_guard
    (t : TargetInfo) (a : FlashArtifact) (hasCb : Bool) (term : Nat → Bool)
    (writeOk : Nat → Nat → Int → Nat → Bool) (cur tot : Nat)
    (hover : (a.content.length : Int)
        > ((t.flash_pages : Int) - (t.start_page : Int)) * (t.page_size : Int)) :
    (internalFlash t a hasCb term writeOk cur tot).2 = some FlashError.notEnoughSpace
    ∧ uploadEvs (internalFlash t a hasCb term writeOk cur tot).1 = []
    ∧ writeCmds (internalFlash t a hasCb term writeOk cur tot).1 = [] := by
  simp only [internalFlash]
  rw [if_pos hover]
  refine ⟨rfl, ?_, ?_⟩
  · rw [uploadEvs_cons_ite, uploadEvs_cons_ite]
    rfl
  · rw [writeCmds_cons_ite, writeCmds_cons_ite]
    rfl

/-- C4 witness: with 4-byte pages and usable range of pages 1 and 2
(8 bytes), the 9-byte image (one byte over) fails with zero uploads. -/
theorem internalFlash_size_guard_witness :
    (internalFlash ⟨0xFF, 5, 4, 2, 3, 1⟩ ⟨List.replicate 9 7, ⟨"cf2", "stm32", "fw"⟩⟩
        true (fun _ => false) (fun _ _ _ _ => true) 1 1).2
        = some FlashError.notEnoughSpace
    ∧ uploadEvs (internalFlash ⟨0xFF, 5, 4, 2, 3, 1⟩
        ⟨List.replicate 9 7, ⟨"cf2", "stm32", "fw"⟩⟩ true (fun _ => false)
        (fun _ _ _ _ => true) 1 1).1 = []
    ∧ writeCmds (internalFlash ⟨0xFF, 5, 4, 2, 3, 1⟩
        ⟨List.replicate 9 7, ⟨"cf2", "stm32", "fw"⟩⟩ true (fun _ => false)
        (fun _ _ _ _ => true) 1 1).1 = [] :=
  internalFlash_size_guard ⟨0xFF, 5, 4, 2, 3, 1⟩
    ⟨List.replicate 9 7, ⟨"cf2", "stm32", "fw"⟩⟩ true (fun _ => false)
    (fun _ _ _ _ => true) 1 1 (by decide)


/-- C5 counterexample: device protocol CF2, `targets =
[('cf2','stm32','fw')]`, bundle holding a cf2/stm32 image (5 bytes, target
address 5) and a cf2/nrf51 image (3 bytes, target address 6).  The claim
says only the STM32 image is written, but the run also issues a
`write_flash` to the NRF51 address 6 and still succeeds: `_flash_flash`
receives every platform-matching artifact and ignores the `targets`
argument. -/
theorem flash_selection_filter_refuted :
    addrWrites 6 (flash 0x10 false
        (fun s => if s == "stm32" then ⟨0xFF, 5, 4, 2, 10, 1⟩ else ⟨0xFE, 6, 4, 2, 10, 1⟩)
        true (fun _ => false) (fun _ _ _ _ => true) (fun _ _ => ([], none))
        ⟨[], some (1, [([1, 2, 3, 4, 5], ⟨"cf2", "stm32", "fw"⟩),
          ([9, 9, 9], ⟨"cf2", "nrf51", "fw"⟩)])⟩
        [⟨"cf2", "stm32", "fw"⟩]).1 = [(1, 1)]
    ∧ (flash 0x10 false
        (fun s => if s == "stm32" then ⟨0xFF, 5, 4, 2, 10, 1⟩ else ⟨0xFE, 6, 4, 2, 10, 1⟩)
        true (fun _ => false) (fun _ _ _ _ => true) (fun _ _ => ([], none))
        ⟨[], some (1, [([1, 2, 3, 4, 5], ⟨"cf2", "stm32", "fw"⟩),
          ([9, 9, 9], ⟨"cf2", "nrf51", "fw"⟩)])⟩
        [⟨"cf2", "stm32", "fw"⟩]).2 = none := by
  constructor
  · decide
  · decide

/-- C5 amended: a non-empty `targets` list only gates whether the MCU stage
runs (some requested target must match the aircraft platform); once it
runs, `_flash_flash` writes every artifact whose platform matches,
ignoring its `targets` argument entirely, so in the scenario above both
the STM32 and the NRF51 images are written. -/
theorem flash_selection_amended :
    (∀ (geo : String → TargetInfo) (hasCb : Bool) (term : Nat → Bool)
        (writeOk : Nat → Nat → Int → Nat → Bool)
        (artifacts : List FlashArtifact) (ts1 ts2 : List Target),
      flashFlash geo hasCb term writeOk artifacts ts1
        = flashFlash geo hasCb term writeOk artifacts ts2)
    ∧ addrWrites 5 (flash 0x10 false
        (fun s => if s == "stm32" then ⟨0xFF, 5, 4, 2, 10, 1⟩ else ⟨0xFE, 6, 4, 2, 10, 1⟩)
        true (fun _ => false) (fun _ _ _ _ => true) (fun _ _ => ([], none))
        ⟨[], some (1, [([1, 2, 3, 4, 5], ⟨"cf2", "stm32", "fw"⟩),
          ([9, 9, 9], ⟨"cf2", "nrf51", "fw"⟩)])⟩
        [⟨"cf2", "stm32", "fw"⟩]).1 = [(1, 2)] := by
  constructor
  · intro geo hasCb term writeOk artifacts ts1 ts2
    rfl
  · decide


/-- C6 counterexample: a warm boot whose probe succeeds but advertises
protocol code `0x42` (not one of the three recognized codes) still makes
`start_bootloader` return `true`: the unsupported protocol only triggers a
printed diagnostic, the session is not aborted. -/
theorem startBootloader_unknown_protocol_refuted :
    (startBootloader true true none true true 0x42 0).2.1 = true
    ∧ recognizedProtocol 0x42 = false
    ∧ (startBootloader true true none true true 0x42 0).1
        = [Event.stdoutMsg "Bootloader protocol not supported!"] := by
  decide

/-- C6 amended: when the probe succeeds and the advertised protocol is not
one of `CF1_PROTO_VER_0`, `CF1_PROTO_VER_1`, `CF2_PROTO_VER`, the
unsupported protocol is reported (a printed diagnostic) but
`start_bootloader` still returns the probe success `true`, adopts the
unknown protocol version, and requests no info update: the session is not
aborted. -/
theorem startBootloader_unknown_protocol_amended
    (warmBoot linkPresent : Bool) (scanUri : Option String)
    (resetOk checkOk : Bool) (probedProtocol oldPv : Nat)
    (hstarted : startedOf warmBoot linkPresent scanUri resetOk checkOk = true)
    (hrec : recognizedProtocol probedProtocol = false) :
    startBootloader warmBoot linkPresent scanUri resetOk checkOk probedProtocol oldPv
      = ([Event.stdoutMsg "Bootloader protocol not supported!"], true, probedProtocol) := by
  unfold startBootloader
  rw [hstarted]
  unfold recognizedProtocol at hrec
  simp only [Bool.or_eq_false_iff] at hrec
  obtain ⟨⟨h0, h1⟩, h2⟩ := hrec
  simp [h0, h1, h2]

/-- C6 amended witness: instantiation at protocol code `0x42`. -/
theorem startBootloader_unknown_protocol_amended_witness :
    startBootloader true true none true true 0x42 0
      = ([Event.stdoutMsg "Bootloader protocol not supported!"], true, 0x42) :=
  startBootloader_unknown_protocol_amended true true none true true 0x42 0
    (by decide) (by decide)


/-- C7: on a path that is not a valid ZIP (the bundle reader yields no
artifacts), a `targets` list of length other than one fails immediately
with the raw-binary error and no events; with exactly one target the run
is identical to flashing a version-1 bundle holding the file's bytes as
the single artifact for that target. -/
theorem flash_raw_binary_mode
    (pv : Nat) (warmBooted : Bool) (geo : String → TargetInfo) (hasCb : Bool)
    (term : Nat → Bool) (writeOk : Nat → Nat → Int → Nat → Bool)
    (oracle : List FlashArtifact → List Target → List Nat × Option FlashError)
    (raw : List Nat) (targets : List Target) :
    (targets.length ≠ 1 →
      flash pv warmBooted geo hasCb term writeOk oracle ⟨raw, none⟩ targets
        = ([], some FlashError.binToMultipleTargets))
    ∧ (∀ (t0 : Target) (junk : List Nat), targets = [t0] →
        flash pv warmBooted geo hasCb term writeOk oracle ⟨raw, none⟩ targets
          = flash pv warmBooted geo hasCb term writeOk oracle
              ⟨junk, some (1, [(raw, t0)])⟩ targets) := by
  constructor
  · intro hlen
    rcases targets with _ | ⟨t0, _ | ⟨t1, rest⟩⟩
    · rfl
    · exact absurd rfl hlen
    · rfl
  · intro t0 junk htg
    subst htg
    rfl

/-- C7 witness: two targets fail with the raw-binary error; one target is
equivalent to the singleton bundle. -/
theorem flash_raw_binary_mode_witness :
    flash 0x10 false (fun _ => ⟨0xFF, 5, 4, 2, 10, 1⟩) true (fun _ => false)
        (fun _ _ _ _ => true) (fun _ _ => ([], none)) ⟨[1, 2], none⟩ []
      = ([], some FlashError.binToMultipleTargets)
    ∧ flash 0x10 false (fun _ => ⟨0xFF, 5, 4, 2, 10, 1⟩) true (fun _ => false)
        (fun _ _ _ _ => true) (fun _ _ => ([], none)) ⟨[1, 2], none⟩
        [⟨"cf2", "stm32", "fw"⟩]
      = flash 0x10 false (fun _ => ⟨0xFF, 5, 4, 2, 10, 1⟩) true (fun _ => false)
          (fun _ _ _ _ => true) (fun _ _ => ([], none))
          ⟨[9], some (1, [([1, 2], ⟨"cf2", "stm32", "fw"⟩)])⟩
          [⟨"cf2", "stm32", "fw"⟩] :=
  ⟨(flash_raw_binary_mode 0x10 false (fun _ => ⟨0xFF, 5, 4, 2, 10, 1⟩) true
      (fun _ => false) (fun _ _ _ _ => true) (fun _ _ => ([], none)) [1, 2] []).1
      (by decide),
   (flash_raw_binary_mode 0x10 false (fun _ => ⟨0xFF, 5, 4, 2, 10, 1⟩) true
      (fun _ => false) (fun _ _ _ _ => true) (fun _ _ => ([], none)) [1, 2]
      [⟨"cf2", "stm32", "fw"⟩]).2 ⟨"cf2", "stm32", "fw"⟩ [9] rfl⟩


lemma flashFlashGo_no_deck (geo : String → TargetInfo) (hasCb : Bool) (term : Nat → Bool)
    (writeOk : Nat → Nat → Int → Nat → Bool) (tot : Nat) :
    ∀ (artifacts : List FlashArtifact) (i : Nat),
      ∀ e ∈ (flashFlashGo geo hasCb term writeOk tot i artifacts).1,
        e.isDeckPipeline = false := by
  intro artifacts
  induction artifacts with
  | nil => intro i e he; simp [flashFlashGo] at he
  | cons a rest ih =>
    intro i e he
    simp only [flashFlashGo] at he
    rcases hif : internalFlash (geo a.target.target) a hasCb term writeOk (i + 1) tot
      with ⟨evs, err⟩
    rw [hif] at he
    have hevs : ∀ e2 ∈ evs, e2.isDeckPipeline = false := by
      intro e2 h2
      have := internalFlash_no_deck (geo a.target.target) hasCb term writeOk (i + 1) tot a e2
      rw [hif] at this
      exact this h2
    rcases err with _ | e2
    · rcases hrec : flashFlashGo geo hasCb term writeOk tot (i + 1) rest with ⟨evs2, res⟩
      rw [hrec] at he
      simp only [List.mem_append] at he
      rcases he with he | he
      · exact hevs e he
      · have := ih (i + 1) e
        rw [hrec] at this
        exact this he
    · exact hevs e he

lemma mcuStage_no_deck (geo : String → TargetInfo) (hasCb : Bool) (term : Nat → Bool)
    (writeOk : Nat → Nat → Int → Nat → Bool)
    (targets flashTargets : List Target) (flashArtifacts : List FlashArtifact) :
    ∀ e ∈ (mcuStage geo hasCb term writeOk targets flashTargets flashArtifacts).1,
      e.isDeckPipeline = false := by
  intro e he
  unfold mcuStage at he
  split at he
  · exact flashFlashGo_no_deck geo hasCb term writeOk _ flashArtifacts 0 e he
  · simp at he

/-- C8: on a session started with `warm_boot = false`, `flash` never enters
the deck pipeline — the trace contains no reset-to-firmware command, no
link handoff, no deck write and no bootloader re-entry — and whenever deck
flashing is in scope (empty `targets` or at least one deck-target) and the
call succeeds, the coldboot skip diagnostic is printed instead. -/
theorem flash_coldboot_no_deck
    (pv : Nat) (geo : String → TargetInfo) (hasCb : Bool) (term : Nat → Bool)
    (writeOk : Nat → Nat → Int → Nat → Bool)
    (oracle : List FlashArtifact → List Target → List Nat × Option FlashError)
    (file : BundleFile) (targets : List Target)
    (hscope : targets = [] ∨ targets.filter (fun tg => tg.platform == "deck") ≠ [])
    (hok : (flash pv false geo hasCb term writeOk oracle file targets).2 = none) :
    (∀ e ∈ (flash pv false geo hasCb term writeOk oracle file targets).1,
        e.isDeckPipeline = false)
    ∧ Event.stdoutMsg "Skipping updating deck on coldboot"
        ∈ (flash pv false geo hasCb term writeOk oracle file targets).1 := by
  have hcond : targets.length = 0
      ∨ 0 < (targets.filter (fun tg => tg.platform == "deck")).length := by
    rcases hscope with h | h
    · exact Or.inl (by rw [h]; rfl)
    · exact Or.inr (List.length_pos.mpr h)
  simp only [flash] at hok ⊢
  rcases hres : resolveArtifacts file targets with e2 | artifacts
  · simp only [hres] at hok
    simp at hok
  · simp only [hres] at hok ⊢
    rcases hmcu : mcuStage geo hasCb term writeOk targets
        (targets.filter fun tg => tg.platform == getPlatformId pv)
        (artifacts.filter fun a => a.target.platform == getPlatformId pv)
      with ⟨evs1, err1⟩
    simp only [hmcu] at hok ⊢
    have hevs1 : ∀ e2 ∈ evs1, e2.isDeckPipeline = false := by
      intro e2 h2
      have := mcuStage_no_deck geo hasCb term writeOk targets
        (targets.filter fun tg => tg.platform == getPlatformId pv)
        (artifacts.filter fun a => a.target.platform == getPlatformId pv) e2
      rw [hmcu] at this
      exact this h2
    rcases err1 with _ | e2
    · have hdeck : deckStage pv false hasCb oracle targets
          (targets.filter fun tg => tg.platform == "deck")
          (artifacts.filter fun a => a.target.platform == "deck")
          = ([Event.stdoutMsg "Skipping updating deck on coldboot"],
             "Deck update skipped in ColdBoot mode.", none) := by
        unfold deckStage
        rw [if_pos hcond]
        rfl
      simp only [hdeck]
      constructor
      · intro e he
        simp only [List.mem_append, List.mem_cons, List.not_mem_nil, or_false,
          or_assoc] at he
        rcases he with he | he | he
        · exact hevs1 e he
        · subst he; rfl
        · split at he
          · simp only [List.mem_cons, List.not_mem_nil, or_false] at he
            subst he; rfl
          · simp only [List.mem_cons, List.not_mem_nil, or_false] at he
            subst he; rfl
      · simp
    · simp at hok


/-- C8 witness: a cold-boot `flash` of a one-artifact cf2 bundle with an
empty target list performs no deck-pipeline step and prints the coldboot
skip notice. -/
theorem flash_coldboot_no_deck_witness :
    (∀ e ∈ (flash 0x10 false (fun _ => ⟨0xFF, 5, 4, 2, 10, 1⟩) true (fun _ => false)
        (fun _ _ _ _ => true) (fun _ _ => ([], none))
        ⟨[], some (1, [([1, 2, 3, 4, 5], ⟨"cf2", "stm32", "fw"⟩)])⟩ []).1,
        e.isDeckPipeline = false)
    ∧ Event.stdoutMsg "Skipping updating deck on coldboot"
        ∈ (flash 0x10 false (fun _ => ⟨0xFF, 5, 4, 2, 10, 1⟩) true (fun _ => false)
            (fun _ _ _ _ => true) (fun _ _ => ([], none))
            ⟨[], some (1, [([1, 2, 3, 4, 5], ⟨"cf2", "stm32", "fw"⟩)])⟩ []).1 :=
  flash_coldboot_no_deck 0x10 (fun _ => ⟨0xFF, 5, 4, 2, 10, 1⟩) true (fun _ => false)
    (fun _ _ _ _ => true) (fun _ _ => ([], none))
    ⟨[], some (1, [([1, 2, 3, 4, 5], ⟨"cf2", "stm32", "fw"⟩)])⟩ []
    (Or.inl rfl) (by decide)

/-- The default `deck_update_msg` of `flash` when the deck stage is not in
scope. -/
def deckUpdateSkippedMsg : String := "Deck update skipped."

/-- C10 (implicit): a `flash` call with exactly one requested target whose
platform matches neither the aircraft platform nor `'deck'` issues no
device command and no deck step at all, returns without error, and its
whole trace is the single final `Flashing done` progress report at 100
(provided the bundle itself is acceptable: any ZIP manifest is version 1). -/
theorem flash_mismatched_target_noop
    (pv : Nat) (warmBooted : Bool) (geo : String → TargetInfo)
    (term : Nat → Bool) (writeOk : Nat → Nat → Int → Nat → Bool)
    (oracle : List FlashArtifact → List Target → List Nat × Option FlashError)
    (file : BundleFile) (t0 : Target)
    (hp1 : t0.platform ≠ getPlatformId pv) (hp2 : t0.platform ≠ "deck")
    (hver : ∀ v fs, file.zipContent = some (v, fs) → v = 1) :
    (flash pv warmBooted geo true term writeOk oracle file [t0]).2 = none
    ∧ ∃ n : Nat, (flash pv warmBooted geo true term writeOk oracle file [t0]).1
        = [Event.progressMsg s!"({n}/{n}) Flashing done! {deckUpdateSkippedMsg}" 100] := by
  have hres : ∃ arts, resolveArtifacts file [t0] = Except.ok arts := by
    unfold resolveArtifacts getFlashArtifactsFromZip
    rcases hzip : file.zipContent with _ | ⟨v, fs⟩
    · exact ⟨[⟨file.rawBytes, t0⟩], rfl⟩
    · have hv : v = 1 := hver v fs hzip
      subst hv
      simp only [ne_eq, not_true_eq_false, if_false, reduceIte]
      split
      · exact ⟨[⟨file.rawBytes, t0⟩], rfl⟩
      · exact ⟨fs.map fun f => ⟨f.1, f.2⟩, rfl⟩
  obtain ⟨arts, hres⟩ := hres
  have hft : [t0].filter (fun tg => tg.platform == getPlatformId pv) = [] := by
    simp [List.filter, beq_eq_false_iff_ne.mpr hp1]
  have hdt : [t0].filter (fun tg => tg.platform == "deck") = [] := by
    simp [List.filter, beq_eq_false_iff_ne.mpr hp2]
  have hcond : ¬ (([t0] : List Target).length = 0
      ∨ 0 < (([t0] : List Target).filter
          (fun tg => tg.platform == getPlatformId pv)).length) := by
    rw [hft]
    simp
  have hcond2 : ¬ (([t0] : List Target).length = 0
      ∨ 0 < (([t0] : List Target).filter (fun tg => tg.platform == "deck")).length) := by
    rw [hdt]
    simp
  have hmcu : mcuStage geo true term writeOk [t0]
      ([t0].filter fun tg => tg.platform == getPlatformId pv)
      (arts.filter fun a => a.target.platform == getPlatformId pv) = ([], none) := by
    unfold mcuStage
    rw [if_neg hcond]
  have hdeck : deckStage pv warmBooted true oracle [t0]
      ([t0].filter fun tg => tg.platform == "deck")
      (arts.filter fun a => a.target.platform == "deck")
      = ([], "Deck update skipped.", none) := by
    unfold deckStage
    rw [if_neg hcond2]
  constructor
  · simp only [flash, hres, hmcu, hdeck]
  · refine ⟨(arts.filter fun a => a.target.platform == getPlatformId pv).length, ?_⟩
    simp only [flash, hres, hmcu, hdeck]
    rfl

/-- C10 witness: a cf1/stm32 target on a CF2-protocol device with a raw
binary: the trace is only the final report and the call succeeds. -/
theorem flash_mismatched_target_noop_witness :
    (flash 0x10 false (fun _ => ⟨0xFF, 5, 4, 2, 10, 1⟩) true (fun _ => false)
        (fun _ _ _ _ => true) (fun _ _ => ([], none)) ⟨[1, 2], none⟩
        [⟨"cf1", "stm32", "fw"⟩]).2 = none
    ∧ ∃ n : Nat, (flash 0x10 false (fun _ => ⟨0xFF, 5, 4, 2, 10, 1⟩) true
        (fun _ => false) (fun _ _ _ _ => true) (fun _ _ => ([], none)) ⟨[1, 2], none⟩
        [⟨"cf1", "stm32", "fw"⟩]).1
        = [Event.progressMsg s!"({n}/{n}) Flashing done! {deckUpdateSkippedMsg}" 100] :=
  flash_mismatched_target_noop 0x10 false (fun _ => ⟨0xFF, 5, 4, 2, 10, 1⟩)
    (fun _ => false) (fun _ _ _ _ => true) (fun _ _ => ([], none)) ⟨[1, 2], none⟩
    ⟨"cf1", "stm32", "fw"⟩ (by decide) (by decide) (by intro v fs h; simp at h)


/-- C9 counterexample: a 3-byte image with 2-byte pages (so `P = 2` pages,
`factor = 200/3`) reports the percent sequence `[0, 66, 133, 133]`: the
percent passed to the progress callback exceeds 100 whenever the image
length is not a multiple of the page size, refuting "every reported
percent lies in [0, 100]". -/
theorem progress_range_refuted :
    percents (internalFlash ⟨0xFF, 5, 2, 10, 50, 1⟩
        ⟨[7, 8, 9], ⟨"cf2", "stm32", "fw"⟩⟩ true (fun _ => false)
        (fun _ _ _ _ => true) 1 1).1 = [0, 66, 133, 133]
    ∧ ¬ (∀ p ∈ percents (internalFlash ⟨0xFF, 5, 2, 10, 50, 1⟩
        ⟨[7, 8, 9], ⟨"cf2", "stm32", "fw"⟩⟩ true (fun _ => false)
        (fun _ _ _ _ => true) 1 1).1, 0 ≤ p ∧ p ≤ 100) := by
  constructor
  · decide
  · decide

lemma percents_cons_ite (c : Prop) [Decidable c] (s1 s2 : String) (p : Int)
    (l : List Event) :
    percents ((if c then Event.progressMsg s1 p else Event.stdoutMsg s2) :: l)
      = if c then p :: percents l else percents l := by
  split <;> rfl

lemma percents_bytes (c : Prop) [Decidable c] (s1 : String) (l : List Event) :
    percents ((if c then ([] : List Event) else [Event.stdoutMsg s1]) ++ l)
      = percents l := by
  split <;> simp

section C9

variable (t : TargetInfo) (a : FlashArtifact) (term : Nat → Bool)
  (writeOk : Nat → Nat → Int → Nat → Bool) (cur tot : Nat)

lemma internalFlash_percents_sorted (hasCb : Bool) :
    List.Pairwise (· ≤ ·) (percents (internalFlash t a hasCb term writeOk cur tot).1)
      ∧ ∀ p ∈ percents (internalFlash t a hasCb term writeOk cur tot).1, 0 ≤ p := by
  simp only [internalFlash]
  set P := pageCount a.content.length t.page_size with hP
  set r := flashLoop t a.content hasCb term writeOk cur tot P 0 0 0 with hr
  by_cases hg : ((a.content.length : Int)
      > ((t.flash_pages : Int) - (t.start_page : Int)) * (t.page_size : Int))
  · rw [if_pos hg]
    try dsimp only
    rw [show ((if hasCb = true then
          Event.progressMsg s!"Firmware ({cur}/{tot}) Starting..." 0
        else Event.stdoutMsg
          s!"Flashing {cur} of {tot} to {TargetTypes.to_string t.id} ({a.target.type}): ")
        :: [if hasCb = true then
          Event.progressMsg "Error: Not enough space to flash the image file." 0
        else Event.stdoutMsg "Error: Not enough space to flash the image file."])
      = ((if hasCb = true then
          Event.progressMsg s!"Firmware ({cur}/{tot}) Starting..." 0
        else Event.stdoutMsg
          s!"Flashing {cur} of {tot} to {TargetTypes.to_string t.id} ({a.target.type}): ")
        :: (if hasCb = true then
          Event.progressMsg "Error: Not enough space to flash the image file." 0
        else Event.stdoutMsg "Error: Not enough space to flash the image file.") :: [])
      from rfl]
    rw [percents_cons_ite, percents_cons_ite]
    cases hasCb
    · simp
    · simp
  · rw [if_neg hg]
    cases hasCb
    · have hnil : percents r.events = [] := by
        rw [hr]
        exact flashLoop_percents_nocb t a.content term writeOk cur tot P 0 0 0
      rcases hre : r.err with _ | e2
      · simp only [hre]
        by_cases hc : 0 < r.ctr
        · rw [if_pos hc]
          by_cases hwk : writeOk t.addr 0
              ((t.start_page : Int) + (((a.content.length - 1) / t.page_size : Nat) : Int)
                - ((r.ctr : Int) - 1)) r.ctr = true
          · rw [if_pos hwk]
            try dsimp only
            rw [List.cons_append, List.cons_append, percents_cons_ite, List.append_assoc,
              percents_bytes, percents_append, hnil]
            simp [percents_cons_writeMsg, writeMsg]
          · rw [if_neg hwk]
            try dsimp only
            rw [List.cons_append, List.cons_append, percents_cons_ite, List.append_assoc,
              percents_bytes, percents_append, hnil]
            simp [percents_cons_writeMsg, writeMsg, writeFailMsg]
        · rw [if_neg hc]
          try dsimp only
          rw [List.cons_append, percents_cons_ite, percents_bytes, hnil]
          simp
      · simp only [hre]
        try dsimp only
        rw [List.cons_append, percents_cons_ite, percents_bytes, hnil]
        simp
    · obtain ⟨hb, hpw, hk⟩ := flashLoop_percents_cb t a.content term writeOk cur tot P 0 0 0
      rw [← hr] at hb hpw hk
      have hb0 : ∀ p ∈ percents r.events,
          0 ≤ p ∧ p ≤ progressPercent t a.content.length r.k := by
        intro p hp
        obtain ⟨h1, h2⟩ := hb p hp
        exact ⟨le_trans (by simp) h1, h2⟩
      rcases hre : r.err with _ | e2
      · simp only [hre]
        by_cases hc : 0 < r.ctr
        · rw [if_pos hc]
          by_cases hwk : writeOk t.addr 0
              ((t.start_page : Int) + (((a.content.length - 1) / t.page_size : Nat) : Int)
                - ((r.ctr : Int) - 1)) r.ctr = true
          · rw [if_pos hwk]
            try dsimp only
            rw [List.cons_append, List.cons_append, percents_cons_ite, List.append_assoc,
              percents_bytes, percents_append]
            simp only [percents_cons_writeMsg, writeMsg, if_pos rfl, if_true,
              percents_cons_progressMsg, percents_cons_writeFlash, percents_nil]
            constructor
            · refine List.Pairwise.cons ?_ ?_
              · intro p hp
                simp only [List.mem_append, List.mem_cons, List.not_mem_nil,
                  or_false] at hp
                rcases hp with hp | rfl
                · exact (hb0 p hp).1
                · simp
              · refine List.pairwise_append.mpr ⟨hpw, ?_, ?_⟩
                · exact List.pairwise_singleton _ _
                · intro p hp q hq
                  simp only [List.mem_cons, List.not_mem_nil, or_false] at hq
                  subst hq
                  exact (hb0 p hp).2
            · intro p hp
              simp only [List.mem_cons, List.mem_append, List.not_mem_nil,
                or_false] at hp
              rcases hp with rfl | hp | rfl
              · exact le_refl 0
              · exact (hb0 p hp).1
              · simp
          · rw [if_neg hwk]
            try dsimp only
            rw [List.cons_append, List.cons_append, percents_cons_ite, List.append_assoc,
              percents_bytes, percents_append]
            simp only [percents_cons_writeMsg, writeMsg, writeFailMsg, if_pos rfl,
              if_true, percents_cons_progressMsg, percents_cons_writeFlash,
              percents_nil]
            constructor
            · refine List.Pairwise.cons ?_ ?_
              · intro p hp
                simp only [List.mem_append, List.mem_cons, List.not_mem_nil,
                  or_false] at hp
                rcases hp with hp | rfl | rfl
                · exact (hb0 p hp).1
                · simp
                · simp
              · refine List.pairwise_append.mpr ⟨hpw, ?_, ?_⟩
                · simp [List.pairwise_cons]
                · intro p hp q hq
                  simp only [List.mem_cons, List.not_mem_nil, or_false] at hq
                  rcases hq with rfl | rfl
                  · exact (hb0 p hp).2
                  · exact (hb0 p hp).2
            · intro p hp
              simp only [List.mem_cons, List.mem_append, List.not_mem_nil,
                or_false] at hp
              rcases hp with rfl | hp | rfl | rfl
              · exact le_refl 0
              · exact (hb0 p hp).1
              · simp
              · simp
        · rw [if_neg hc]
          try dsimp only
          rw [List.cons_append, percents_cons_ite, percents_bytes]
          simp only [if_pos rfl, if_true]
          constructor
          · exact List.Pairwise.cons (fun p hp => (hb0 p hp).1) hpw
          · intro p hp
            simp only [List.mem_cons] at hp
            rcases hp with rfl | hp
            · exact le_refl 0
            · exact (hb0 p hp).1
      · simp only [hre]
        try dsimp only
        rw [List.cons_append, percents_cons_ite, percents_bytes]
        simp only [if_pos rfl, if_true]
        constructor
        · exact List.Pairwise.cons (fun p hp => (hb0 p hp).1) hpw
        · intro p hp
          simp only [List.mem_cons] at hp
          rcases hp with rfl | hp
          · exact le_refl 0
          · exact (hb0 p hp).1

end C9


/-- The percent carried by an event, when it is a progress report. -/
def eventPercent : Event → Option Int
  | .progressMsg _ p => some p
  | _ => none

lemma flash_success_final_100
    (pv : Nat) (warmBooted : Bool) (geo : String → TargetInfo)
    (term : Nat → Bool) (writeOk : Nat → Nat → Int → Nat → Bool)
    (oracle : List FlashArtifact → List Target → List Nat × Option FlashError)
    (file : BundleFile) (targets : List Target)
    (hok : (flash pv warmBooted geo true term writeOk oracle file targets).2 = none) :
    (((flash pv warmBooted geo true term writeOk oracle file targets).1).getLast?).bind
      eventPercent = some 100 := by
  simp only [flash] at hok ⊢
  rcases hres : resolveArtifacts file targets with e2 | artifacts
  · rw [hres] at hok
    simp at hok
  · simp only [hres] at hok ⊢
    rcases hmcu : mcuStage geo true term writeOk targets
        (targets.filter fun tg => tg.platform == getPlatformId pv)
        (artifacts.filter fun a => a.target.platform == getPlatformId pv)
      with ⟨evs1, err1⟩
    simp only [hmcu] at hok ⊢
    rcases err1 with _ | e2
    · rcases hdk : deckStage pv warmBooted true oracle targets
          (targets.filter fun tg => tg.platform == "deck")
          (artifacts.filter fun a => a.target.platform == "deck")
        with ⟨evs2, msg2, err2⟩
      simp only [hdk] at hok ⊢
      rcases err2 with _ | e2
      · show ((evs1 ++ evs2 ++ _).getLast?).bind eventPercent = some 100
        rw [if_pos (by trivial)]
        simp only [← List.append_assoc, List.getLast?_concat]
        rfl
      · simp at hok
    · simp at hok

/-- C9 amended: the percents handed to the progress callback by
`_internal_flash` are nonnegative and monotonically non-decreasing within
one artifact, but are not clamped to 100 (they exceed 100 whenever the
image length is not a page multiple, as the counterexample shows); on
success the final `flash`-level completion report carries exactly 100,
which may be lower than the engine's last reported percent. -/
theorem progress_reporting_amended
    (t : TargetInfo) (a : FlashArtifact) (hasCb : Bool) (term : Nat → Bool)
    (writeOk : Nat → Nat → Int → Nat → Bool) (cur tot : Nat)
    (pv : Nat) (warmBooted : Bool) (geo : String → TargetInfo)
    (term2 : Nat → Bool) (writeOk2 : Nat → Nat → Int → Nat → Bool)
    (oracle : List FlashArtifact → List Target → List Nat × Option FlashError)
    (file : BundleFile) (targets : List Target)
    (hok : (flash pv warmBooted geo true term2 writeOk2 oracle file targets).2 = none) :
    (List.Pairwise (· ≤ ·) (percents (internalFlash t a hasCb term writeOk cur tot).1)
      ∧ ∀ p ∈ percents (internalFlash t a hasCb term writeOk cur tot).1, 0 ≤ p)
    ∧ (((flash pv warmBooted geo true term2 writeOk2 oracle file targets).1).getLast?).bind
        eventPercent = some 100 :=
  ⟨internalFlash_percents_sorted t a term writeOk cur tot hasCb,
   flash_success_final_100 pv warmBooted geo term2 writeOk2 oracle file targets hok⟩

/-- C9 amended witness: the counterexample image (percents up to 133) still
has a sorted nonnegative percent sequence, and a successful concrete flash
ends with a percent-100 report. -/
theorem progress_reporting_amended_witness :
    (List.Pairwise (· ≤ ·) (percents (internalFlash ⟨0xFF, 5, 2, 10, 50, 1⟩
        ⟨[7, 8, 9], ⟨"cf2", "stm32", "fw"⟩⟩ true (fun _ => false)
        (fun _ _ _ _ => true) 1 1).1)
      ∧ ∀ p ∈ percents (internalFlash ⟨0xFF, 5, 2, 10, 50, 1⟩
          ⟨[7, 8, 9], ⟨"cf2", "stm32", "fw"⟩⟩ true (fun _ => false)
          (fun _ _ _ _ => true) 1 1).1, 0 ≤ p)
    ∧ (((flash 0x10 false (fun _ => ⟨0xFF, 5, 4, 2, 10, 1⟩) true (fun _ => false)
        (fun _ _ _ _ => true) (fun _ _ => ([], none))
        ⟨[], some (1, [([1, 2, 3, 4, 5], ⟨"cf2", "stm32", "fw"⟩)])⟩ []).1).getLast?).bind
        eventPercent = some 100 :=
  progress_reporting_amended ⟨0xFF, 5, 2, 10, 50, 1⟩
    ⟨[7, 8, 9], ⟨"cf2", "stm32", "fw"⟩⟩ true (fun _ => false) (fun _ _ _ _ => true) 1 1
    0x10 false (fun _ => ⟨0xFF, 5, 4, 2, 10, 1⟩) (fun _ => false) (fun _ _ _ _ => true)
    (fun _ _ => ([], none)) ⟨[], some (1, [([1, 2, 3, 4, 5], ⟨"cf2", "stm32", "fw"⟩)])⟩ []
    (by decide)

end Crazyflie
